import Mathlib

/-!
Shallow embedding of the procedural network generators of the Cocoon
Visualizer (`src/js/generators.js`), together with the catalog lookup of
`DataManager` that the dispatch function `generateTopology` consults.

Modelling conventions:

* JS numbers are modelled as exact rationals `ℚ`.  The two places where the
  source can produce a float `NaN` that changes control flow (the `0/0`
  layer-ratio of `generateFunnel` and `generateHourglass` when
  `numLayers = 1`) are modelled with `jdiv : ℚ → ℚ → Option ℚ`, `none`
  standing for `NaN`; a `for (i = 0; i < NaN; i++)` loop body never runs,
  which is the `none => 0` branch of the layer-count functions.
* The ambient `Math.random()` source is an injected stream `r : ℕ → ℚ`
  consumed through an explicit draw counter `k`; each call to
  `Math.random()` reads `r k` and bumps the counter, exactly in the
  source's evaluation order (including `&&` short-circuits).  `ValidRng r`
  states the contract of `Math.random()`.
* Float trigonometry/square roots (`Math.cos`, `Math.sin`, `Math.sqrt`,
  `Math.acos`, `Math.PI`) only influence geometric coordinates; they are
  modelled by an abstract oracle bundle `Geom` and every theorem is proved
  for an arbitrary bundle.
* JS array `push` interleavings into several distinct arrays are split into
  parallel list builders; `arr[idx]` is `List.getD` (out-of-range access,
  which JS answers with `undefined`, only happens where the source is
  guarded, and the guards are carried over).
-/

/-- Oracle bundle for the JS float math functions used by the generators
(`Math.PI`, `Math.cos`, `Math.sin`, `Math.sqrt`, `Math.acos`).  They only
feed the geometric coordinates, which no claim inspects, so they are kept
abstract and all theorems hold for every bundle. -/
structure Geom where
  pi : ℚ
  cos : ℚ → ℚ
  sin : ℚ → ℚ
  sqrt : ℚ → ℚ
  acos : ℚ → ℚ

/-- Contract of `Math.random()`: every draw lies in `[0, 1)`. -/
def ValidRng (r : ℕ → ℚ) : Prop := ∀ n, 0 ≤ r n ∧ r n < 1

/-- A weighted directed edge `{from, to, weight}` as pushed by every
generator (src/js/generators.js). -/
structure Connection where
  «from» : ℕ
  «to» : ℕ
  weight : ℚ
  deriving DecidableEq

/-- A topology-generator position record `{x, y, z, layer}`. -/
structure CocoonPos where
  x : ℚ
  y : ℚ
  z : ℚ
  layer : ℕ
  deriving DecidableEq

/-- An internal-structure position record `{x, y, z, type}`. -/
structure NodePos where
  x : ℚ
  y : ℚ
  z : ℚ
  type : String
  deriving DecidableEq

/-- Default used for (provably in-range) `List.getD` position lookups. -/
def dfltPos : CocoonPos := { x := 0, y := 0, z := 0, layer := 0 }

/-- Default used for (provably in-range) `List.getD` node lookups. -/
def dfltNode : NodePos := { x := 0, y := 0, z := 0, type := "" }

/-- Result of a topology generator: `{positions, connections, types, layers}`.
The empty fallback object of `generateTopology` has no `layers` key, hence
`Option ℕ`. -/
structure TopoResult where
  positions : List CocoonPos
  connections : List Connection
  types : List String
  layers : Option ℕ
  deriving DecidableEq

/-- Result of an internal-structure generator: `{positions, connections}`. -/
structure StructResult where
  positions : List NodePos
  connections : List Connection
  deriving DecidableEq

/-- The `visualization.typeDistribution` table of a topology config.  The
funnel file uses the `apex`/`base`/`middle` roles, the hourglass file the
`input`/`compress`/`center`/`expand`/`output` roles; the model carries the
union of the fields. -/
structure TypeDistribution where
  apex : List String
  base : List String
  middle : List String
  input : List String
  compress : List String
  center : List String
  expand : List String
  output : List String
  deriving DecidableEq

/-- A topology catalog record, with every `parameters.*.default` and
`visualization.*` field read by any of the four topology generators
flattened into one structure.  `spiralOffset` is `Option` because
`generateFunnel` guards on the presence of `config.parameters.spiralOffset`. -/
structure TopologyConfig where
  generatorType : String
  numLayers : ℕ
  kNeighbors : ℕ
  rewireProb : ℚ
  endCocoons : ℕ
  centerCocoons : ℕ
  spiralOffset : Option ℚ
  layerHeight : ℚ
  baseRadius : ℚ
  layerRadius : ℚ
  radius : ℚ
  heightVariance : ℚ
  typeDistribution : TypeDistribution
  deriving DecidableEq

/-- A structure catalog record (`generator.nodeDistribution` plus the
`parameters.*.default` fields read by the two structure generators). -/
structure StructureConfig where
  nodeDistribution : String
  distanceThreshold : ℚ
  connectionDensity : ℚ
  deriving DecidableEq

/-- The empty fallback `{positions: [], connections: [], types: []}` returned
by `generateTopology` for an unknown topology or generator tag. -/
def emptyTopo : TopoResult :=
  { positions := [], connections := [], types := [], layers := none }

/-- JS float division restricted to the shapes reachable in the generators:
a zero denominator yields `none` (the reachable zero-denominator cases are
all `0/0`, i.e. `NaN`). -/
def jdiv (a b : ℚ) : Option ℚ := if b = 0 then none else some (a / b)

/-- The block of cocoon ids `[start, start+count)` that a layer pushes into
`layerCocoonIds[layer]`. -/
def layerIds (start count : ℕ) : List ℕ := (List.range count).map (start + ·)

/-- Total node count of a list of layers under a per-layer count function. -/
def sumCounts (cF : ℕ → ℕ) (ls : List ℕ) : ℕ := (ls.map cF).sum

/-- Embeds the shared fan-in connection block of `generateFunnel`
(src/js/generators.js:74-86) and `generateHourglass` (lines 351-363): up to
three proportionally mapped predecessors with weights `1 - c*wStep`.  The
source guard `layer > 0 && layerCocoonIds[layer-1].length > 0` becomes the
emptiness test on `prevIds` (the initial call passes `prevIds = []` for
layer 0). -/
def fanInConns (wStep : ℚ) (prevIds : List ℕ) (count i cocoonId : ℕ) : List Connection :=
  if 0 < prevIds.length then
    (List.range (min 3 prevIds.length)).map fun c =>
      { «from» := prevIds.getD ((i * prevIds.length / count + c) % prevIds.length) 0
        «to» := cocoonId
        weight := 1 - (c : ℚ) * wStep }
  else []

/-- Accumulated outputs of the layered loop shared by `generateFunnel` and
`generateHourglass`. -/
structure LayerOut where
  positions : List CocoonPos
  connections : List Connection
  types : List String
  layerCocoonIds : List (List ℕ)

/-- The layered `for (layer ...) for (i ...)` loop skeleton shared verbatim
by `generateFunnel` and `generateHourglass`, parameterized by the per-layer
node count `cF`, the per-layer type list `tF`, the per-node position `pF`
and the fan-in weight step `wStep`.  `start` is the running `cocoonId` and
`prev` the previous layer's `layerCocoonIds` block. -/
def layeredGo (cF : ℕ → ℕ) (tF : ℕ → List String) (pF : ℕ → ℕ → CocoonPos) (wStep : ℚ) :
    List ℕ → ℕ → List ℕ → LayerOut
  | [], _, _ => { positions := [], connections := [], types := [], layerCocoonIds := [] }
  | layer :: rest, start, prev =>
    let count := cF layer
    let tail := layeredGo cF tF pF wStep rest (start + count) (layerIds start count)
    { positions := (List.range count).map (pF layer) ++ tail.positions
      connections :=
        ((List.range count).flatMap fun i => fanInConns wStep prev count i (start + i))
          ++ tail.connections
      types := (List.range count).map (fun i => (tF layer).getD (i % (tF layer).length) "undefined")
          ++ tail.types
      layerCocoonIds := layerIds start count :: tail.layerCocoonIds }

/-- Embeds the funnel layer count (src/js/generators.js:50-51):
`ratio = layer/(numLayers-1)`, `count = max(1, floor(1+(targetCount-1)*ratio^2))`.
With `numLayers = 1` the ratio is `0/0 = NaN`, the count is `NaN`, and the
JS node loop `i < NaN` runs zero times: the `none => 0` branch. -/
def funnelLayerCount (targetCount numLayers layer : ℕ) : ℕ :=
  match jdiv (layer : ℚ) ((numLayers : ℚ) - 1) with
  | none => 0
  | some ratio => (max 1 ⌊1 + ((targetCount : ℚ) - 1) * ratio ^ 2⌋).toNat

/-- Modelled from the spec words of §4.1.1 / §8 for the refinement part of
claim C4: layer `L`'s node count is
`max(1, floor(1 + (targetCount-1) * ((L/(numLayers-1))^2)))`. -/
def funnelLayerCountSpec (targetCount numLayers layer : ℕ) : ℕ :=
  (max 1 ⌊1 + ((targetCount : ℚ) - 1) * ((layer : ℚ) / ((numLayers : ℚ) - 1)) ^ 2⌋).toNat

/-- Funnel per-layer type list (src/js/generators.js:58-61). -/
def funnelLayerTypes (config : TopologyConfig) (numLayers layer : ℕ) : List String :=
  if layer = 0 then config.typeDistribution.apex
  else if layer = numLayers - 1 then config.typeDistribution.base
  else config.typeDistribution.middle

/-- Funnel node position (src/js/generators.js:52-53, 63-69).  `ℚ` division
by zero (`ratio` when `numLayers = 1`) is harmless here: that layer
produces no nodes in the first place. -/
def funnelPos (g : Geom) (config : TopologyConfig) (numLayers targetCount layer i : ℕ) :
    CocoonPos :=
  let ratio : ℚ := (layer : ℚ) / ((numLayers : ℚ) - 1)
  let count := funnelLayerCount targetCount numLayers layer
  let y := ((layer : ℚ) - (numLayers : ℚ) / 2) * config.layerHeight
  let radius := 1/2 + ratio * config.baseRadius
  let spiralOffset := config.spiralOffset.getD (3/10)
  let angle := (i : ℚ) / (count : ℚ) * g.pi * 2 + (layer : ℚ) * spiralOffset
  { x := g.cos angle * radius, y := y, z := g.sin angle * radius, layer := layer }

/-- Embeds `generateFunnel` (src/js/generators.js:37-93). -/
def generateFunnel (g : Geom) (config : TopologyConfig) (targetCount : ℕ) : TopoResult :=
  let numLayers := config.numLayers
  let out := layeredGo (funnelLayerCount targetCount numLayers)
    (funnelLayerTypes config numLayers)
    (funnelPos g config numLayers targetCount) (1/5)
    (List.range numLayers) 0 []
  { positions := out.positions, connections := out.connections, types := out.types,
    layers := some numLayers }

/-- Embeds the hourglass layer count (src/js/generators.js:316-322):
`ratio = |layer - midLayer| / midLayer`,
`count = round(centerCocoons + (endCocoons-centerCocoons)*ratio)`.  With
`numLayers = 1` the ratio is `0/0 = NaN` and the node loop runs zero
times. -/
def hourglassLayerCount (config : TopologyConfig) (numLayers layer : ℕ) : ℕ :=
  let midLayer := numLayers / 2
  match jdiv (|((layer : ℚ) - (midLayer : ℚ))|) (midLayer : ℚ) with
  | none => 0
  | some ratio =>
    (round ((config.centerCocoons : ℚ)
      + ((config.endCocoons : ℚ) - (config.centerCocoons : ℚ)) * ratio)).toNat

/-- Hourglass per-layer type list (src/js/generators.js:333-338). -/
def hourglassLayerTypes (config : TopologyConfig) (numLayers layer : ℕ) : List String :=
  let midLayer := numLayers / 2
  if layer = 0 then config.typeDistribution.input
  else if layer < midLayer then config.typeDistribution.compress
  else if layer = midLayer then config.typeDistribution.center
  else if layer < numLayers - 1 then config.typeDistribution.expand
  else config.typeDistribution.output

/-- Hourglass node position (src/js/generators.js:325-344). -/
def hourglassPos (g : Geom) (config : TopologyConfig) (numLayers layer i : ℕ) : CocoonPos :=
  let midLayer := numLayers / 2
  let count := hourglassLayerCount config numLayers layer
  let y := ((layer : ℚ) - (midLayer : ℚ)) * config.layerHeight
  let radius := 1/2 + ((count : ℚ) / (config.endCocoons : ℚ)) * 3
  let angle := (i : ℚ) / (count : ℚ) * g.pi * 2
  { x := g.cos angle * radius, y := y, z := g.sin angle * radius, layer := layer }

/-- Embeds `generateHourglass` (src/js/generators.js:300-370); the layered
loop and fan-in block are the funnel's with weight step `0.15`.  As in the
source, the `targetCount` argument is accepted but never read: layer sizes
come from `endCocoons`/`centerCocoons`. -/
def generateHourglass (g : Geom) (config : TopologyConfig) (targetCount : ℕ) : TopoResult :=
  let numLayers := config.numLayers
  let out := layeredGo (hourglassLayerCount config numLayers)
    (hourglassLayerTypes config numLayers)
    (hourglassPos g config numLayers) (3/20)
    (List.range numLayers) 0 []
  { positions := out.positions, connections := out.connections, types := out.types,
    layers := some numLayers }

/-- Onion layer count (src/js/generators.js:111):
`max(1, floor(targetCount*(layer+1)/10))` (exact integer arithmetic). -/
def onionLayerCount (targetCount layer : ℕ) : ℕ :=
  max 1 (targetCount * (layer + 1) / 10)

/-- Onion node position on a Fibonacci shell (src/js/generators.js:112-124). -/
def onionPos (g : Geom) (config : TopologyConfig) (layer count i : ℕ) : CocoonPos :=
  let phi := g.acos (-1 + (2 * (i : ℚ)) / (count : ℚ))
  let theta := g.sqrt ((count : ℚ) * g.pi) * phi
  let radius := 1 + (layer : ℚ) * config.layerRadius
  { x := radius * g.cos theta * g.sin phi
    y := radius * g.sin theta * g.sin phi
    z := radius * g.cos phi
    layer := layer }

/-- Embeds the per-node random part of the onion loop
(src/js/generators.js:126-138): one type draw, then — only when
`layer > 0`, because `&&` short-circuits — one draw for the 50% connection
test and, if it passes, one draw for the inner-layer index. -/
def onionNode (r : ℕ → ℚ) (typeNames : List String) (prev : List ℕ) (layer cocoonId k : ℕ) :
    String × List Connection × ℕ :=
  let ty := typeNames.getD (⌊r k * 4⌋).toNat "undefined"
  if 0 < layer then
    if r (k + 1) < 1/2 then
      (ty, [{ «from» := prev.getD (⌊r (k + 2) * (prev.length : ℚ)⌋).toNat 0
              «to» := cocoonId, weight := 4/5 }], k + 3)
    else (ty, [], k + 2)
  else (ty, [], k + 1)

/-- Inner onion node loop over the node indices of one layer, threading the
draw counter. -/
def onionNodesGo (r : ℕ → ℚ) (typeNames : List String) (prev : List ℕ) (layer start : ℕ) :
    List ℕ → ℕ → List String × List Connection × ℕ
  | [], k => ([], [], k)
  | i :: rest, k =>
    let node := onionNode r typeNames prev layer (start + i) k
    let tail := onionNodesGo r typeNames prev layer start rest node.2.2
    (node.1 :: tail.1, node.2.1 ++ tail.2.1, tail.2.2)

/-- Accumulated outputs of the onion layer loop. -/
structure OnionOut where
  positions : List CocoonPos
  connections : List Connection
  types : List String
  layerCocoonIds : List (List ℕ)
  k : ℕ

/-- Outer onion layer loop (src/js/generators.js:110-142). -/
def onionGo (g : Geom) (r : ℕ → ℚ) (typeNames : List String) (config : TopologyConfig)
    (targetCount : ℕ) : List ℕ → ℕ → List ℕ → ℕ → OnionOut
  | [], _, _, k => { positions := [], connections := [], types := [], layerCocoonIds := [], k := k }
  | layer :: rest, start, prev, k =>
    let count := onionLayerCount targetCount layer
    let nodes := onionNodesGo r typeNames prev layer start (List.range count) k
    let tail := onionGo g r typeNames config targetCount rest (start + count)
      (layerIds start count) nodes.2.2
    { positions := (List.range count).map (onionPos g config layer count) ++ tail.positions
      connections := nodes.2.1 ++ tail.connections
      types := nodes.1 ++ tail.types
      layerCocoonIds := layerIds start count :: tail.layerCocoonIds
      k := tail.k }

/-- Embeds `generateOnion` (src/js/generators.js:98-145).  `typeNames` is
the caller-ambient `Object.keys(DataManager.types)` list. -/
def generateOnion (g : Geom) (r : ℕ → ℚ) (typeNames : List String) (config : TopologyConfig)
    (targetCount : ℕ) : TopoResult :=
  let numLayers := config.numLayers
  let out := onionGo g r typeNames config targetCount (List.range numLayers) 0 [] 0
  { positions := out.positions, connections := out.connections, types := out.types,
    layers := some numLayers }

/-- Embeds the small-world position/type loop (src/js/generators.js:161-173):
per node three jitter draws (x, y, z) and, for middle nodes only, one type
draw.  The forced bands are `i < cocoonCount*0.1` (sensor) and
`i > cocoonCount*0.9` (processor); the JS float literals `0.1`/`0.9` are
modelled as the exact rationals they denote. -/
def swNodes (g : Geom) (r : ℕ → ℚ) (typeNames : List String) (config : TopologyConfig)
    (cocoonCount : ℕ) : List ℕ → ℕ → List CocoonPos × List String × ℕ
  | [], k => ([], [], k)
  | i :: rest, k =>
    let angle := (i : ℚ) / (cocoonCount : ℚ) * g.pi * 2
    let pos : CocoonPos :=
      { x := g.cos angle * config.radius + (r k - 1/2) * 2
        y := (r (k + 1) - 1/2) * config.heightVariance
        z := g.sin angle * config.radius + (r (k + 2) - 1/2) * 2
        layer := 0 }
    let tk : String × ℕ :=
      if (i : ℚ) < (cocoonCount : ℚ) * (1/10) then ("sensor", k + 3)
      else if (i : ℚ) > (cocoonCount : ℚ) * (9/10) then ("processor", k + 3)
      else (typeNames.getD (⌊r (k + 3) * 4⌋).toNat "undefined", k + 4)
    let tail := swNodes g r typeNames config cocoonCount rest tk.2
    (pos :: tail.1, tk.1 :: tail.2.1, tail.2.2)

/-- Embeds the `while (target === i)` redraw of the small-world rewiring
(src/js/generators.js:182-185).  The JS loop diverges on the measure-zero
event that every draw lands on `i`; `fuel` bounds the modelled redraws and
`none` stands for divergence. -/
def swRetarget (r : ℕ → ℚ) (i cocoonCount : ℕ) : ℕ → ℕ → Option (ℕ × ℕ)
  | 0, _ => none
  | fuel + 1, k =>
    let target := (⌊r k * (cocoonCount : ℚ)⌋).toNat
    if target = i then swRetarget r i cocoonCount fuel (k + 1) else some (target, k + 1)

/-- Inner edge loop of the small-world generator over the ring offsets
`j = 1 .. k/2` for one node (src/js/generators.js:177-193): one draw for the
rewire test, then either the deterministic ring target `(i+j) % count` or
the redrawn rewire target (weight fixed at `0.7`). -/
def swEdgesInner (r : ℕ → ℚ) (rewireProb : ℚ) (fuel i cocoonCount : ℕ) :
    List ℕ → ℕ → Option (List Connection × ℕ)
  | [], k => some ([], k)
  | j :: rest, k =>
    (if r k < rewireProb then swRetarget r i cocoonCount fuel (k + 1)
      else some ((i + j) % cocoonCount, k + 1)).bind fun tk =>
    (swEdgesInner r rewireProb fuel i cocoonCount rest tk.2).bind fun cs =>
    some ({ «from» := i, «to» := tk.1, weight := 7/10 } :: cs.1, cs.2)

/-- Outer edge loop of the small-world generator over all node indices. -/
def swEdgesOuter (r : ℕ → ℚ) (rewireProb : ℚ) (fuel cocoonCount kHalf : ℕ) :
    List ℕ → ℕ → Option (List Connection × ℕ)
  | [], k => some ([], k)
  | i :: rest, k =>
    (swEdgesInner r rewireProb fuel i cocoonCount ((List.range kHalf).map (· + 1)) k).bind
      fun cs =>
    (swEdgesOuter r rewireProb fuel cocoonCount kHalf rest cs.2).bind fun cs2 =>
    some (cs.1 ++ cs2.1, cs2.2)

/-- Embeds `generateSmallWorld` (src/js/generators.js:150-197).  The JS loop
bound `j <= k/2` over integer `j` is the list `[1 .. ⌊k/2⌋]`.  The result is
`none` exactly when the rewire redraw loop exceeds `fuel` (the JS run that
diverges). -/
def generateSmallWorld (g : Geom) (r : ℕ → ℚ) (fuel : ℕ) (typeNames : List String)
    (config : TopologyConfig) (cocoonCount : ℕ) : Option TopoResult :=
  let kHalf := config.kNeighbors / 2
  let nodes := swNodes g r typeNames config cocoonCount (List.range cocoonCount) 0
  (swEdgesOuter r config.rewireProb fuel cocoonCount kHalf (List.range cocoonCount)
      nodes.2.2).map fun cs =>
    { positions := nodes.1, connections := cs.1, types := nodes.2.1, layers := some 1 }

/-- The node-type ternary shared by both internal-structure generators
(src/js/generators.js:236, 277):
`i < 8 ? 'input' : i >= nodeCount - 8 ? 'output' : 'internal'` (the
subtraction is over JS numbers, hence `ℤ`). -/
def structType (nodeCount i : ℕ) : String :=
  if i < 8 then "input"
  else if (nodeCount : ℤ) - 8 ≤ (i : ℤ) then "output"
  else "internal"

/-- Sphere-surface node position (src/js/generators.js:223-237).  With
`nodeCount = 1` the JS `i/(nodeCount-1)` is `0/0 = NaN`; that poisons only
the coordinates (no pair loop runs for a single node), so plain `ℚ`
division (`0/0 = 0`) is used here. -/
def spherePos (g : Geom) (nodeCount i : ℕ) : NodePos :=
  let phi := g.pi * (3 - g.sqrt 5)
  let y := 1 - ((i : ℚ) / ((nodeCount : ℚ) - 1)) * 2
  let radius := g.sqrt (1 - y * y) * 3
  let theta := phi * (i : ℚ)
  { x := g.cos theta * radius, y := y * 3, z := g.sin theta * radius
    type := structType nodeCount i }

/-- The ordered pair sequence of the `for (i) for (j = i+1)` all-pairs loops
(src/js/generators.js:241-242, 282-283). -/
def pairsUpTo (n : ℕ) : List (ℕ × ℕ) :=
  (List.range n).flatMap fun i => (List.range' (i + 1) (n - (i + 1))).map fun j => (i, j)

/-- Euclidean distance between two stored positions through the `sqrt`
oracle (src/js/generators.js:243-247). -/
def sphereDist (g : Geom) (ps : List NodePos) (i j : ℕ) : ℚ :=
  let a := ps.getD i dfltNode
  let b := ps.getD j dfltNode
  g.sqrt ((a.x - b.x) ^ 2 + (a.y - b.y) ^ 2 + (a.z - b.z) ^ 2)

/-- Sphere-surface pair loop (src/js/generators.js:241-257): an edge needs
`dist < threshold*4` and a 25% draw; the draw is consumed only when the
distance test passes (`&&` short-circuit). -/
def sphereConnsGo (g : Geom) (r : ℕ → ℚ) (threshold : ℚ) (ps : List NodePos) :
    List (ℕ × ℕ) → ℕ → List Connection × ℕ
  | [], k => ([], k)
  | ij :: rest, k =>
    let dist := sphereDist g ps ij.1 ij.2
    if dist < threshold * 4 then
      if r k < 1/4 then
        let tail := sphereConnsGo g r threshold ps rest (k + 1)
        ({ «from» := ij.1, «to» := ij.2, weight := 1 - dist / (threshold * 4) } :: tail.1, tail.2)
      else sphereConnsGo g r threshold ps rest (k + 1)
    else sphereConnsGo g r threshold ps rest k

/-- Embeds `generateSphereSurface` (src/js/generators.js:219-260). -/
def generateSphereSurface (g : Geom) (r : ℕ → ℚ) (config : StructureConfig) (nodeCount : ℕ) :
    StructResult :=
  let positions := (List.range nodeCount).map (spherePos g nodeCount)
  let threshold := config.distanceThreshold
  { positions := positions
    connections := (sphereConnsGo g r threshold positions (pairsUpTo nodeCount) 0).1 }

/-- Random-graph pair loop (src/js/generators.js:282-292): an edge is
emitted with probability `density*0.15` (one draw for the test, one more
for the weight when it passes). -/
def randomConnsGo (r : ℕ → ℚ) (density : ℚ) : List (ℕ × ℕ) → ℕ → List Connection × ℕ
  | [], k => ([], k)
  | ij :: rest, k =>
    if r k < density * (3/20) then
      let tail := randomConnsGo r density rest (k + 2)
      ({ «from» := ij.1, «to» := ij.2, weight := r (k + 1) } :: tail.1, tail.2)
    else randomConnsGo r density rest (k + 1)

/-- Embeds `generateRandomGraph` (src/js/generators.js:265-295): positions
uniform in the 6-cube (three draws per node, so node `i` draws at counters
`3i..3i+2` and the pair loop starts at counter `3*nodeCount`). -/
def generateRandomGraph (r : ℕ → ℚ) (config : StructureConfig) (nodeCount : ℕ) : StructResult :=
  let positions := (List.range nodeCount).map fun i =>
    ({ x := (r (3 * i) - 1/2) * 6
       y := (r (3 * i + 1) - 1/2) * 6
       z := (r (3 * i + 2) - 1/2) * 6
       type := structType nodeCount i } : NodePos)
  { positions := positions
    connections :=
      (randomConnsGo r config.connectionDensity (pairsUpTo nodeCount) (3 * nodeCount)).1 }

/-- Embeds `generateInternalStructure` (src/js/generators.js:202-214) with
the structure catalog as an explicit lookup (`DataManager.getStructure`
answers `null` for unknown names). -/
def generateInternalStructure (g : Geom) (r : ℕ → ℚ)
    (structures : String → Option StructureConfig) (structureName : String) (nodeCount : ℕ) :
    StructResult :=
  match structures structureName with
  | none => { positions := [], connections := [] }
  | some s =>
    if s.nodeDistribution = "fibonacci_sphere" then generateSphereSurface g r s nodeCount
    else generateRandomGraph r s nodeCount

/-- Embeds `generateTopology` (src/js/generators.js:13-32) with the topology
catalog as an explicit lookup (`DataManager.getTopology` answers `null` for
unknown names).  The third JS argument `structure` is accepted and ignored,
exactly as in the source.  `none` stands for the (measure-zero) divergence
of the small-world rewiring loop. -/
def generateTopology (g : Geom) (r : ℕ → ℚ) (fuel : ℕ) (typeNames : List String)
    (topologies : String → Option TopologyConfig) (topologyName : String) (cocoonCount : ℕ)
    («structure» : Option StructureConfig) : Option TopoResult :=
  match topologies topologyName with
  | none => some emptyTopo
  | some topology =>
    if topology.generatorType = "funnel" then some (generateFunnel g topology cocoonCount)
    else if topology.generatorType = "onion" then
      some (generateOnion g r typeNames topology cocoonCount)
    else if topology.generatorType = "smallworld" then
      generateSmallWorld g r fuel typeNames topology cocoonCount
    else if topology.generatorType = "hourglass" then
      some (generateHourglass g topology cocoonCount)
    else some emptyTopo

/-- The topology catalog shape loaded by `DataManager.loadAll`
(src/unnamed/part_001): exactly the keys `funnel`, `onion`, `smallworld`,
`hourglass`; `DataManager.getTopology` returns `null` for every other
name. -/
def loadedTopologies (f o sw h : TopologyConfig) : String → Option TopologyConfig :=
  fun name =>
    if name = "funnel" then some f
    else if name = "onion" then some o
    else if name = "smallworld" then some sw
    else if name = "hourglass" then some h
    else none

/-- Index validity of every connection of a topology result (claim C1). -/
def connIndicesValid (res : TopoResult) : Prop :=
  ∀ c ∈ res.connections, c.«from» < res.positions.length ∧ c.«to» < res.positions.length

/-- Index validity of every connection of a structure result (claim C1). -/
def structConnIndicesValid (res : StructResult) : Prop :=
  ∀ c ∈ res.connections, c.«from» < res.positions.length ∧ c.«to» < res.positions.length

/-- No connection is a self-loop (claim C9). -/
def noSelfLoop (res : TopoResult) : Prop := ∀ c ∈ res.connections, c.«from» ≠ c.«to»

/-- No connection of a structure result is a self-loop (claim C9). -/
def structNoSelfLoop (res : StructResult) : Prop := ∀ c ∈ res.connections, c.«from» ≠ c.«to»

/-- Every connection climbs exactly one layer: the layer of its `from`
endpoint plus one is the layer of its `to` endpoint (claim C10). -/
def adjacentLayers (res : TopoResult) : Prop :=
  ∀ c ∈ res.connections,
    (res.positions.getD c.«from» dfltPos).layer + 1 = (res.positions.getD c.«to» dfltPos).layer

/-- The parallel-array invariant `types.length = positions.length` (C3). -/
def typesMatch (res : TopoResult) : Prop := res.types.length = res.positions.length

/-- Lift of `connIndicesValid` over the possible divergence of the
small-world rewiring loop. -/
def connIndicesValidO (o : Option TopoResult) : Prop := ∀ res ∈ o, connIndicesValid res

/-- Lift of `typesMatch` over the possible divergence of the small-world
rewiring loop. -/
def typesMatchO (o : Option TopoResult) : Prop := ∀ res ∈ o, typesMatch res

/-- Lift of `noSelfLoop` over the possible divergence of the small-world
rewiring loop. -/
def noSelfLoopO (o : Option TopoResult) : Prop := ∀ res ∈ o, noSelfLoop res

/-- The deterministic ring-lattice edge list of the small-world generator
for `kHalf = 2`: each node `i` connects to `(i+1) % count` and
`(i+2) % count` with weight `0.7` (claim C5). -/
def swRingConns (count : ℕ) : List Connection :=
  (List.range count).flatMap fun i =>
    [{ «from» := i, «to» := (i + 1) % count, weight := 7/10 },
     { «from» := i, «to» := (i + 2) % count, weight := 7/10 }]

/-- A trivial oracle bundle used for concrete witness evaluations. -/
def gZero : Geom :=
  { pi := 0, cos := fun _ => 0, sin := fun _ => 0, sqrt := fun _ => 0, acos := fun _ => 0 }

/-- The constant one-half random stream (a valid `Math.random()` outcome). -/
def rHalf : ℕ → ℚ := fun _ => 1/2

/-- The constant zero random stream (a valid `Math.random()` outcome). -/
def rZero : ℕ → ℚ := fun _ => 0

/-- The four type names of `data/types.json` as listed by the spec. -/
def names4 : List String := ["sensor", "processor", "memory", "modulator"]

/-- A concrete type-distribution table for witness evaluations. -/
def tdTest : TypeDistribution :=
  { apex := ["sensor"], base := ["processor"], middle := ["memory"]
    input := ["sensor"], compress := ["memory"], center := ["modulator"]
    expand := ["memory"], output := ["processor"] }

/-- A concrete topology config for witness evaluations; individual witnesses
override the fields they care about. -/
def cfgTest : TopologyConfig :=
  { generatorType := "funnel", numLayers := 3, kNeighbors := 4, rewireProb := 0
    endCocoons := 6, centerCocoons := 2, spiralOffset := some (3/10)
    layerHeight := 2, baseRadius := 3, layerRadius := 2, radius := 8, heightVariance := 2
    typeDistribution := tdTest }

/-- A concrete structure config for witness evaluations. -/
def cfgStructTest : StructureConfig :=
  { nodeDistribution := "fibonacci_sphere", distanceThreshold := 3/10, connectionDensity := 1/2 }

/-- The boundary config of claim C6: a single layer. -/
def cfgOneLayer : TopologyConfig := { cfgTest with numLayers := 1 }

/-- A small-world config with `kNeighbors = 2` (used to exhibit the
self-loop of claim C9 at `cocoonCount = 1`). -/
def cfgSWk2 : TopologyConfig := { cfgTest with kNeighbors := 2 }

/-! Helper lemmas about the id-block and indexing combinators. -/

theorem layerIds_length (s c : ℕ) : (layerIds s c).length = c := by
  simp [layerIds]

theorem layerIds_getD (s c i : ℕ) (h : i < c) : (layerIds s c).getD i 0 = s + i := by
  rw [layerIds, List.getD_eq_getElem?_getD]
  simp [List.getElem?_map, List.getElem?_range h]

theorem mem_layerIds {s c x : ℕ} (h : x ∈ layerIds s c) : s ≤ x ∧ x < s + c := by
  rcases List.mem_map.mp h with ⟨i, hi, rfl⟩
  have := List.mem_range.mp hi
  omega

theorem getD_map_range {α : Type} (g : ℕ → α) (c i : ℕ) (d : α) (h : i < c) :
    ((List.range c).map g).getD i d = g i := by
  rw [List.getD_eq_getElem?_getD]
  simp [List.getElem?_map, List.getElem?_range h]

theorem getD_range (n i d : ℕ) (h : i < n) : (List.range n).getD i d = i := by
  rw [List.getD_eq_getElem?_getD]
  simp [List.getElem?_range h]

theorem flatMap_length_sum {α : Type} (f : ℕ → List α) (ls : List ℕ) :
    (ls.flatMap f).length = (ls.map fun L => (f L).length).sum := by
  induction ls with
  | nil => simp
  | cons L rest ih => simp [ih]

theorem flatMap_getD {α : Type} (f : ℕ → List α) (dflt : α) :
    ∀ (ls : List ℕ) (d i : ℕ), d < ls.length → i < (f (ls.getD d 0)).length →
    (ls.flatMap f).getD ((((ls.take d).map fun L => (f L).length).sum) + i) dflt
      = (f (ls.getD d 0)).getD i dflt := by
  intro ls
  induction ls with
  | nil => intro d i hd _; simp at hd
  | cons L rest ih =>
    intro d i hd hi
    cases d with
    | zero =>
      simp only [List.take_zero, List.map_nil, List.sum_nil, Nat.zero_add, List.flatMap_cons,
        List.getD_cons_zero] at *
      exact List.getD_append _ _ _ _ (by simpa using hi)
    | succ e =>
      simp only [List.take_succ_cons, List.map_cons, List.sum_cons, List.flatMap_cons,
        List.getD_cons_succ] at *
      rw [Nat.add_assoc, List.getD_append_right _ _ _ _ (by omega), Nat.add_sub_cancel_left]
      exact ih e i (by simpa using hd) hi

theorem floor_mul_toNat_lt {q : ℚ} {c : ℕ} (h1 : q < 1) (hc : 0 < c) :
    (⌊q * (c : ℚ)⌋).toNat < c := by
  have h2 : q * (c : ℚ) < (c : ℚ) :=
    mul_lt_of_lt_one_left (by exact_mod_cast hc) h1
  have h3 : ⌊q * (c : ℚ)⌋ < (c : ℤ) := by
    rw [Int.floor_lt]; exact_mod_cast h2
  omega

theorem sumCounts_range_succ (cF : ℕ → ℕ) (d : ℕ) :
    sumCounts cF (List.range (d + 1)) = sumCounts cF (List.range d) + cF d := by
  simp [sumCounts, List.range_succ]

theorem sumCounts_range_mono (cF : ℕ → ℕ) {a b : ℕ} (h : a ≤ b) :
    sumCounts cF (List.range a) ≤ sumCounts cF (List.range b) := by
  induction b with
  | zero =>
    have : a = 0 := by omega
    subst this; exact le_refl _
  | succ b ih =>
    rcases Nat.lt_or_ge a (b + 1) with hab | hab
    · calc sumCounts cF (List.range a) ≤ sumCounts cF (List.range b) := ih (by omega)
        _ ≤ _ := by rw [sumCounts_range_succ]; omega
    · have : a = b + 1 := by omega
      subst this; exact le_refl _

/-! Structural lemmas for the layered funnel/hourglass loop. -/

theorem layeredGo_positions (cF : ℕ → ℕ) (tF : ℕ → List String) (pF : ℕ → ℕ → CocoonPos)
    (wStep : ℚ) :
    ∀ (ls : List ℕ) (start : ℕ) (prev : List ℕ),
    (layeredGo cF tF pF wStep ls start prev).positions
      = ls.flatMap fun L => (List.range (cF L)).map (pF L) := by
  intro ls
  induction ls with
  | nil => intro start prev; rfl
  | cons L rest ih => intro start prev; simp [layeredGo, ih]

theorem layeredGo_positions_length (cF : ℕ → ℕ) (tF : ℕ → List String) (pF : ℕ → ℕ → CocoonPos)
    (wStep : ℚ) (ls : List ℕ) (start : ℕ) (prev : List ℕ) :
    (layeredGo cF tF pF wStep ls start prev).positions.length = sumCounts cF ls := by
  rw [layeredGo_positions]
  rw [flatMap_length_sum]
  simp [sumCounts]

theorem layeredGo_types_length (cF : ℕ → ℕ) (tF : ℕ → List String) (pF : ℕ → ℕ → CocoonPos)
    (wStep : ℚ) :
    ∀ (ls : List ℕ) (start : ℕ) (prev : List ℕ),
    (layeredGo cF tF pF wStep ls start prev).types.length = sumCounts cF ls := by
  intro ls
  induction ls with
  | nil => intro start prev; rfl
  | cons L rest ih => intro start prev; simp [layeredGo, ih, sumCounts]

theorem fanInConns_mem {wStep : ℚ} {prev : List ℕ} {count i cid : ℕ} {c : Connection}
    (h : c ∈ fanInConns wStep prev count i cid) :
    0 < prev.length ∧ c.«to» = cid ∧
      ∃ idx, idx < prev.length ∧ c.«from» = prev.getD idx 0 := by
  rw [fanInConns] at h
  by_cases hp : 0 < prev.length
  · simp only [if_pos hp, List.mem_map, List.mem_range] at h
    rcases h with ⟨cc, _, rfl⟩
    exact ⟨hp, rfl, (i * prev.length / count + cc) % prev.length,
      Nat.mod_lt _ hp, rfl⟩
  · simp [if_neg hp] at h

theorem layeredGo_conn_spec (cF : ℕ → ℕ) (tF : ℕ → List String) (pF : ℕ → ℕ → CocoonPos)
    (wStep : ℚ) :
    ∀ (ls : List ℕ) (start ps pc : ℕ), ps + pc = start →
    ∀ c ∈ (layeredGo cF tF pF wStep ls start (layerIds ps pc)).connections,
    ∃ d, d < ls.length ∧ ∃ i, i < cF (ls.getD d 0) ∧
      c.«to» = start + sumCounts cF (ls.take d) + i ∧
      ((d = 0 ∧ ∃ p, p < pc ∧ c.«from» = ps + p) ∨
       (1 ≤ d ∧ ∃ p, p < cF (ls.getD (d - 1) 0) ∧
         c.«from» = start + sumCounts cF (ls.take (d - 1)) + p)) := by
  intro ls
  induction ls with
  | nil => intro start ps pc _ c hc; simp [layeredGo] at hc
  | cons L rest ih =>
    intro start ps pc hps c hc
    simp only [layeredGo, List.mem_append] at hc
    rcases hc with hc | hc
    · -- connection pushed by the head layer, fanning into `prev`
      rcases List.mem_flatMap.mp hc with ⟨i, hi, hf⟩
      have hi' := List.mem_range.mp hi
      rcases fanInConns_mem hf with ⟨hp, hto, idx, hidx, hfrom⟩
      rw [layerIds_length] at hp hidx
      refine ⟨0, by simp, i, ?_, ?_, Or.inl ⟨rfl, idx, hidx, ?_⟩⟩
      · simpa using hi'
      · simpa [sumCounts] using hto
      · rw [hfrom, layerIds_getD _ _ _ hidx]
    · -- connection pushed by a later layer: shift the inductive description
      rcases ih (start + cF L) start (cF L) rfl c hc with
        ⟨d, hd, i, hcnt, hto, hbr⟩
      refine ⟨d + 1, by simpa using hd, i, by simpa using hcnt, ?_, ?_⟩
      · simp only [List.take_succ_cons, sumCounts, List.map_cons, List.sum_cons] at *
        omega
      · rcases hbr with ⟨rfl, p, hp, hfrom⟩ | ⟨hd1, p, hp, hfrom⟩
        · refine Or.inr ⟨by omega, p, by simpa using hp, ?_⟩
          simp only [Nat.add_sub_cancel, List.take_zero, sumCounts, List.map_nil,
            List.sum_nil, Nat.add_zero]
          omega
        · refine Or.inr ⟨by omega, p, ?_, ?_⟩
          · have : d + 1 - 1 = (d - 1) + 1 := by omega
            rw [this, List.getD_cons_succ]
            exact hp
          · have : d + 1 - 1 = (d - 1) + 1 := by omega
            rw [this, List.take_succ_cons]
            simp only [sumCounts, List.map_cons, List.sum_cons] at *
            omega

theorem layeredTop_conn (cF : ℕ → ℕ) (tF : ℕ → List String) (pF : ℕ → ℕ → CocoonPos)
    (wStep : ℚ) (n : ℕ) :
    ∀ c ∈ (layeredGo cF tF pF wStep (List.range n) 0 []).connections,
    ∃ d i p, 1 ≤ d ∧ d < n ∧ i < cF d ∧ p < cF (d - 1) ∧
      c.«to» = sumCounts cF (List.range d) + i ∧
      c.«from» = sumCounts cF (List.range (d - 1)) + p := by
  intro c hc
  have hnil : (layerIds 0 0) = ([] : List ℕ) := by simp [layerIds]
  rw [← hnil] at hc
  rcases layeredGo_conn_spec cF tF pF wStep (List.range n) 0 0 0 rfl c hc with
    ⟨d, hd, i, hcnt, hto, hbr⟩
  rw [List.length_range] at hd
  rw [getD_range _ _ _ hd] at hcnt
  have htake : (List.range n).take d = List.range d := by
    rw [List.take_range]; congr 1; omega
  rcases hbr with ⟨_, p, hp, _⟩ | ⟨hd1, p, hp, hfrom⟩
  · omega
  · have hd1n : d - 1 < n := by omega
    rw [getD_range _ _ _ hd1n] at hp
    have htake1 : (List.range n).take (d - 1) = List.range (d - 1) := by
      rw [List.take_range]; congr 1; omega
    refine ⟨d, i, p, hd1, hd, hcnt, hp, ?_, ?_⟩
    · rw [htake] at hto; omega
    · rw [htake1] at hfrom; omega

theorem layeredTop_valid (cF : ℕ → ℕ) (tF : ℕ → List String) (pF : ℕ → ℕ → CocoonPos)
    (wStep : ℚ) (n : ℕ) :
    ∀ c ∈ (layeredGo cF tF pF wStep (List.range n) 0 []).connections,
    c.«from» < c.«to» ∧ c.«to» < sumCounts cF (List.range n) := by
  intro c hc
  rcases layeredTop_conn cF tF pF wStep n c hc with ⟨d, i, p, hd1, hd, hi, hp, hto, hfrom⟩
  have hsucc1 : sumCounts cF (List.range ((d - 1) + 1))
      = sumCounts cF (List.range (d - 1)) + cF (d - 1) := sumCounts_range_succ cF (d - 1)
  have hdd : (d - 1) + 1 = d := by omega
  rw [hdd] at hsucc1
  have hmono1 : sumCounts cF (List.range d) ≤ sumCounts cF (List.range d) := le_refl _
  have hsucc2 : sumCounts cF (List.range (d + 1))
      = sumCounts cF (List.range d) + cF d := sumCounts_range_succ cF d
  have hmono2 : sumCounts cF (List.range (d + 1)) ≤ sumCounts cF (List.range n) :=
    sumCounts_range_mono cF (by omega)
  omega

theorem layeredTop_adjacent (cF : ℕ → ℕ) (tF : ℕ → List String) (pF : ℕ → ℕ → CocoonPos)
    (wStep : ℚ) (n : ℕ) (hL : ∀ L i, (pF L i).layer = L) :
    ∀ c ∈ (layeredGo cF tF pF wStep (List.range n) 0 []).connections,
    ((layeredGo cF tF pF wStep (List.range n) 0 []).positions.getD c.«from» dfltPos).layer + 1
      = ((layeredGo cF tF pF wStep (List.range n) 0 []).positions.getD c.«to» dfltPos).layer := by
  intro c hc
  rcases layeredTop_conn cF tF pF wStep n c hc with ⟨d, i, p, hd1, hd, hi, hp, hto, hfrom⟩
  rw [layeredGo_positions]
  have hlen : ∀ L, ((List.range (cF L)).map (pF L)).length = cF L := by
    intro L; simp
  have hget : ∀ e j, e < n → j < cF e →
      ((List.range n).flatMap fun L => (List.range (cF L)).map (pF L)).getD
        (sumCounts cF (List.range e) + j) dfltPos = pF e j := by
    intro e j he hj
    have htake : (List.range n).take e = List.range e := by
      rw [List.take_range]; congr 1; omega
    have hsum : (((List.range n).take e).map fun L =>
        ((List.range (cF L)).map (pF L)).length).sum = sumCounts cF (List.range e) := by
      rw [htake]; simp [sumCounts]
    have := flatMap_getD (fun L => (List.range (cF L)).map (pF L)) dfltPos (List.range n) e j
      (by simpa using he) (by rw [getD_range _ _ _ he]; simpa using hj)
    rw [hsum] at this
    rw [this, getD_range _ _ _ he, getD_map_range _ _ _ _ hj]
  rw [hto, hfrom, hget d i hd hi, hget (d - 1) p (by omega) hp, hL, hL]
  omega

theorem generateFunnel_connIndicesValid (g : Geom) (cfg : TopologyConfig) (t : ℕ) :
    connIndicesValid (generateFunnel g cfg t) := by
  intro c hc
  simp only [generateFunnel] at hc ⊢
  have hval := layeredTop_valid (funnelLayerCount t cfg.numLayers)
    (funnelLayerTypes cfg cfg.numLayers) (funnelPos g cfg cfg.numLayers t) (1/5)
    cfg.numLayers c hc
  rw [layeredGo_positions_length]
  omega

theorem generateFunnel_noSelfLoop (g : Geom) (cfg : TopologyConfig) (t : ℕ) :
    noSelfLoop (generateFunnel g cfg t) := by
  intro c hc
  simp only [generateFunnel] at hc
  have hval := layeredTop_valid (funnelLayerCount t cfg.numLayers)
    (funnelLayerTypes cfg cfg.numLayers) (funnelPos g cfg cfg.numLayers t) (1/5)
    cfg.numLayers c hc
  omega

theorem generateFunnel_adjacentLayers (g : Geom) (cfg : TopologyConfig) (t : ℕ) :
    adjacentLayers (generateFunnel g cfg t) := by
  intro c hc
  simp only [generateFunnel] at hc ⊢
  exact layeredTop_adjacent (funnelLayerCount t cfg.numLayers)
    (funnelLayerTypes cfg cfg.numLayers) (funnelPos g cfg cfg.numLayers t) (1/5)
    cfg.numLayers (fun _ _ => rfl) c hc

theorem generateFunnel_typesMatch (g : Geom) (cfg : TopologyConfig) (t : ℕ) :
    typesMatch (generateFunnel g cfg t) := by
  simp only [typesMatch, generateFunnel]
  rw [layeredGo_positions_length, layeredGo_types_length]

theorem generateHourglass_connIndicesValid (g : Geom) (cfg : TopologyConfig) (t : ℕ) :
    connIndicesValid (generateHourglass g cfg t) := by
  intro c hc
  simp only [generateHourglass] at hc ⊢
  have hval := layeredTop_valid (hourglassLayerCount cfg cfg.numLayers)
    (hourglassLayerTypes cfg cfg.numLayers) (hourglassPos g cfg cfg.numLayers) (3/20)
    cfg.numLayers c hc
  rw [layeredGo_positions_length]
  omega

theorem generateHourglass_noSelfLoop (g : Geom) (cfg : TopologyConfig) (t : ℕ) :
    noSelfLoop (generateHourglass g cfg t) := by
  intro c hc
  simp only [generateHourglass] at hc
  have hval := layeredTop_valid (hourglassLayerCount cfg cfg.numLayers)
    (hourglassLayerTypes cfg cfg.numLayers) (hourglassPos g cfg cfg.numLayers) (3/20)
    cfg.numLayers c hc
  omega

theorem generateHourglass_adjacentLayers (g : Geom) (cfg : TopologyConfig) (t : ℕ) :
    adjacentLayers (generateHourglass g cfg t) := by
  intro c hc
  simp only [generateHourglass] at hc ⊢
  exact layeredTop_adjacent (hourglassLayerCount cfg cfg.numLayers)
    (hourglassLayerTypes cfg cfg.numLayers) (hourglassPos g cfg cfg.numLayers) (3/20)
    cfg.numLayers (fun _ _ => rfl) c hc

theorem generateHourglass_typesMatch (g : Geom) (cfg : TopologyConfig) (t : ℕ) :
    typesMatch (generateHourglass g cfg t) := by
  simp only [typesMatch, generateHourglass]
  rw [layeredGo_positions_length, layeredGo_types_length]

/-! Structural lemmas for the onion generator. -/

theorem onionLayerCount_pos (t L : ℕ) : 0 < onionLayerCount t L := by
  simp [onionLayerCount]

theorem onionNodesGo_types_length (r : ℕ → ℚ) (tn : List String) (prev : List ℕ)
    (layer start : ℕ) :
    ∀ (is : List ℕ) (k : ℕ), (onionNodesGo r tn prev layer start is k).1.length = is.length := by
  intro is
  induction is with
  | nil => intro k; rfl
  | cons i rest ih => intro k; simp [onionNodesGo, ih]

theorem onionNode_conn {r : ℕ → ℚ} {tn : List String} {prev : List ℕ} {layer cid k : ℕ}
    {c : Connection} (hr : ValidRng r) (hc : c ∈ (onionNode r tn prev layer cid k).2.1) :
    0 < layer ∧ c.«to» = cid ∧
      ((0 < prev.length ∧ ∃ idx, idx < prev.length ∧ c.«from» = prev.getD idx 0) ∨
        (prev.length = 0 ∧ c.«from» = 0)) := by
  rw [onionNode] at hc
  by_cases hl : 0 < layer
  · rw [if_pos hl] at hc
    by_cases hdraw : r (k + 1) < 1/2
    · rw [if_pos hdraw] at hc
      simp only [List.mem_singleton] at hc
      subst hc
      refine ⟨hl, rfl, ?_⟩
      rcases Nat.eq_zero_or_pos prev.length with hp | hp
      · refine Or.inr ⟨hp, ?_⟩
        have : prev = [] := List.length_eq_zero.mp hp
        simp [this]
      · exact Or.inl ⟨hp, _, floor_mul_toNat_lt (hr (k + 2)).2 hp, rfl⟩
    · rw [if_neg hdraw] at hc; simp at hc
  · rw [if_neg hl] at hc; simp at hc

theorem onionNodesGo_conns {r : ℕ → ℚ} {tn : List String} {prev : List ℕ}
    {layer start : ℕ} (hr : ValidRng r) :
    ∀ (is : List ℕ) (k : ℕ), ∀ c ∈ (onionNodesGo r tn prev layer start is k).2.1,
    0 < layer ∧ (∃ i ∈ is, c.«to» = start + i) ∧
      ((0 < prev.length ∧ ∃ idx, idx < prev.length ∧ c.«from» = prev.getD idx 0) ∨
        (prev.length = 0 ∧ c.«from» = 0)) := by
  intro is
  induction is with
  | nil => intro k c hc; simp [onionNodesGo] at hc
  | cons i rest ih =>
    intro k c hc
    simp only [onionNodesGo, List.mem_append] at hc
    rcases hc with hc | hc
    · rcases onionNode_conn hr hc with ⟨hl, hto, hfr⟩
      exact ⟨hl, ⟨i, by simp, hto⟩, hfr⟩
    · rcases ih _ c hc with ⟨hl, ⟨j, hj, hto⟩, hfr⟩
      exact ⟨hl, ⟨j, by simp [hj], hto⟩, hfr⟩

theorem onionGo_positions (g : Geom) (r : ℕ → ℚ) (tn : List String) (cfg : TopologyConfig)
    (t : ℕ) :
    ∀ (ls : List ℕ) (start : ℕ) (prev : List ℕ) (k : ℕ),
    (onionGo g r tn cfg t ls start prev k).positions
      = ls.flatMap fun L =>
          (List.range (onionLayerCount t L)).map (onionPos g cfg L (onionLayerCount t L)) := by
  intro ls
  induction ls with
  | nil => intro start prev k; rfl
  | cons L rest ih => intro start prev k; simp [onionGo, ih]

theorem onionGo_positions_length (g : Geom) (r : ℕ → ℚ) (tn : List String)
    (cfg : TopologyConfig) (t : ℕ) (ls : List ℕ) (start : ℕ) (prev : List ℕ) (k : ℕ) :
    (onionGo g r tn cfg t ls start prev k).positions.length
      = sumCounts (onionLayerCount t) ls := by
  rw [onionGo_positions, flatMap_length_sum]
  simp [sumCounts]

theorem onionGo_types_length (g : Geom) (r : ℕ → ℚ) (tn : List String)
    (cfg : TopologyConfig) (t : ℕ) :
    ∀ (ls : List ℕ) (start : ℕ) (prev : List ℕ) (k : ℕ),
    (onionGo g r tn cfg t ls start prev k).types.length
      = sumCounts (onionLayerCount t) ls := by
  intro ls
  induction ls with
  | nil => intro start prev k; rfl
  | cons L rest ih =>
    intro start prev k
    simp [onionGo, ih, onionNodesGo_types_length, sumCounts]

theorem onionGo_conn_spec (g : Geom) (r : ℕ → ℚ) (tn : List String) (cfg : TopologyConfig)
    (t : ℕ) (hr : ValidRng r) :
    ∀ (ls : List ℕ) (start ps pc k : ℕ), ps + pc = start →
    (0 < pc ∨ ls.getD 0 0 = 0) →
    ∀ c ∈ (onionGo g r tn cfg t ls start (layerIds ps pc) k).connections,
    ∃ d, d < ls.length ∧ ∃ i, i < onionLayerCount t (ls.getD d 0) ∧
      c.«to» = start + sumCounts (onionLayerCount t) (ls.take d) + i ∧
      ((d = 0 ∧ ∃ p, p < pc ∧ c.«from» = ps + p) ∨
       (1 ≤ d ∧ ∃ p, p < onionLayerCount t (ls.getD (d - 1) 0) ∧
         c.«from» = start + sumCounts (onionLayerCount t) (ls.take (d - 1)) + p)) := by
  intro ls
  induction ls with
  | nil => intro start ps pc k _ _ c hc; simp [onionGo] at hc
  | cons L rest ih =>
    intro start ps pc k hps hpc c hc
    simp only [onionGo, List.mem_append] at hc
    rcases hc with hc | hc
    · rcases onionNodesGo_conns hr _ _ c hc with ⟨hl, ⟨i, hi, hto⟩, hfr⟩
      have hpc' : 0 < pc := by
        rcases hpc with h | h
        · exact h
        · simp only [List.getD_cons_zero] at h; omega
      have hi' := List.mem_range.mp hi
      refine ⟨0, by simp, i, by simpa using hi', by simpa [sumCounts] using hto,
        Or.inl ⟨rfl, ?_⟩⟩
      rcases hfr with ⟨_, idx, hidx, hfrom⟩ | ⟨hzero, _⟩
      · rw [layerIds_length] at hidx
        exact ⟨idx, hidx, by rw [hfrom, layerIds_getD _ _ _ hidx]⟩
      · rw [layerIds_length] at hzero; omega
    · rcases ih (start + onionLayerCount t L) start (onionLayerCount t L) _ rfl
        (Or.inl (onionLayerCount_pos t L)) c hc with ⟨d, hd, i, hcnt, hto, hbr⟩
      refine ⟨d + 1, by simpa using hd, i, by simpa using hcnt, ?_, ?_⟩
      · simp only [List.take_succ_cons, sumCounts, List.map_cons, List.sum_cons] at *
        omega
      · rcases hbr with ⟨rfl, p, hp, hfrom⟩ | ⟨hd1, p, hp, hfrom⟩
        · refine Or.inr ⟨by omega, p, by simpa using hp, ?_⟩
          simp only [Nat.add_sub_cancel, List.take_zero, sumCounts, List.map_nil,
            List.sum_nil, Nat.add_zero]
          omega
        · refine Or.inr ⟨by omega, p, ?_, ?_⟩
          · have : d + 1 - 1 = (d - 1) + 1 := by omega
            rw [this, List.getD_cons_succ]
            exact hp
          · have : d + 1 - 1 = (d - 1) + 1 := by omega
            rw [this, List.take_succ_cons]
            simp only [sumCounts, List.map_cons, List.sum_cons] at *
            omega

theorem onionTop_conn (g : Geom) (r : ℕ → ℚ) (tn : List String) (cfg : TopologyConfig)
    (t n : ℕ) (hr : ValidRng r) :
    ∀ c ∈ (onionGo g r tn cfg t (List.range n) 0 [] 0).connections,
    ∃ d i p, 1 ≤ d ∧ d < n ∧ i < onionLayerCount t d ∧ p < onionLayerCount t (d - 1) ∧
      c.«to» = sumCounts (onionLayerCount t) (List.range d) + i ∧
      c.«from» = sumCounts (onionLayerCount t) (List.range (d - 1)) + p := by
  intro c hc
  have hnil : (layerIds 0 0) = ([] : List ℕ) := by simp [layerIds]
  rw [← hnil] at hc
  have hhead : (List.range n).getD 0 0 = 0 := by
    cases n with
    | zero => rfl
    | succ m =>
      rw [getD_range _ _ _ (by omega)]
  rcases onionGo_conn_spec g r tn cfg t hr (List.range n) 0 0 0 0 rfl (Or.inr hhead) c hc with
    ⟨d, hd, i, hcnt, hto, hbr⟩
  rw [List.length_range] at hd
  rw [getD_range _ _ _ hd] at hcnt
  have htake : (List.range n).take d = List.range d := by
    rw [List.take_range]; congr 1; omega
  rcases hbr with ⟨_, p, hp, _⟩ | ⟨hd1, p, hp, hfrom⟩
  · omega
  · have hd1n : d - 1 < n := by omega
    rw [getD_range _ _ _ hd1n] at hp
    have htake1 : (List.range n).take (d - 1) = List.range (d - 1) := by
      rw [List.take_range]; congr 1; omega
    refine ⟨d, i, p, hd1, hd, hcnt, hp, ?_, ?_⟩
    · rw [htake] at hto; omega
    · rw [htake1] at hfrom; omega

theorem onionTop_valid (g : Geom) (r : ℕ → ℚ) (tn : List String) (cfg : TopologyConfig)
    (t n : ℕ) (hr : ValidRng r) :
    ∀ c ∈ (onionGo g r tn cfg t (List.range n) 0 [] 0).connections,
    c.«from» < c.«to» ∧ c.«to» < sumCounts (onionLayerCount t) (List.range n) := by
  intro c hc
  rcases onionTop_conn g r tn cfg t n hr c hc with ⟨d, i, p, hd1, hd, hi, hp, hto, hfrom⟩
  have hsucc1 : sumCounts (onionLayerCount t) (List.range ((d - 1) + 1))
      = sumCounts (onionLayerCount t) (List.range (d - 1)) + onionLayerCount t (d - 1) :=
    sumCounts_range_succ _ (d - 1)
  have hdd : (d - 1) + 1 = d := by omega
  rw [hdd] at hsucc1
  have hsucc2 : sumCounts (onionLayerCount t) (List.range (d + 1))
      = sumCounts (onionLayerCount t) (List.range d) + onionLayerCount t d :=
    sumCounts_range_succ _ d
  have hmono2 : sumCounts (onionLayerCount t) (List.range (d + 1))
      ≤ sumCounts (onionLayerCount t) (List.range n) :=
    sumCounts_range_mono _ (by omega)
  omega

theorem generateOnion_connIndicesValid (g : Geom) (r : ℕ → ℚ) (tn : List String)
    (cfg : TopologyConfig) (t : ℕ) (hr : ValidRng r) :
    connIndicesValid (generateOnion g r tn cfg t) := by
  intro c hc
  simp only [generateOnion] at hc ⊢
  have hval := onionTop_valid g r tn cfg t cfg.numLayers hr c hc
  rw [onionGo_positions_length]
  omega

theorem generateOnion_noSelfLoop (g : Geom) (r : ℕ → ℚ) (tn : List String)
    (cfg : TopologyConfig) (t : ℕ) (hr : ValidRng r) :
    noSelfLoop (generateOnion g r tn cfg t) := by
  intro c hc
  simp only [generateOnion] at hc
  have hval := onionTop_valid g r tn cfg t cfg.numLayers hr c hc
  omega

theorem generateOnion_adjacentLayers (g : Geom) (r : ℕ → ℚ) (tn : List String)
    (cfg : TopologyConfig) (t : ℕ) (hr : ValidRng r) :
    adjacentLayers (generateOnion g r tn cfg t) := by
  intro c hc
  simp only [generateOnion] at hc ⊢
  rcases onionTop_conn g r tn cfg t cfg.numLayers hr c hc with
    ⟨d, i, p, hd1, hd, hi, hp, hto, hfrom⟩
  rw [onionGo_positions]
  have hget : ∀ e j, e < cfg.numLayers → j < onionLayerCount t e →
      ((List.range cfg.numLayers).flatMap fun L =>
        (List.range (onionLayerCount t L)).map (onionPos g cfg L (onionLayerCount t L))).getD
        (sumCounts (onionLayerCount t) (List.range e) + j) dfltPos
      = onionPos g cfg e (onionLayerCount t e) j := by
    intro e j he hj
    have htake : (List.range cfg.numLayers).take e = List.range e := by
      rw [List.take_range]; congr 1; omega
    have hsum : (((List.range cfg.numLayers).take e).map fun L =>
        ((List.range (onionLayerCount t L)).map (onionPos g cfg L (onionLayerCount t L))).length).sum
        = sumCounts (onionLayerCount t) (List.range e) := by
      rw [htake]; simp [sumCounts]
    have := flatMap_getD
      (fun L => (List.range (onionLayerCount t L)).map (onionPos g cfg L (onionLayerCount t L)))
      dfltPos (List.range cfg.numLayers) e j
      (by simpa using he) (by rw [getD_range _ _ _ he]; simpa using hj)
    rw [hsum] at this
    rw [this, getD_range _ _ _ he, getD_map_range _ _ _ _ hj]
  rw [hto, hfrom, hget d i hd hi, hget (d - 1) p (by omega) hp]
  simp only [onionPos]
  omega

theorem generateOnion_typesMatch (g : Geom) (r : ℕ → ℚ) (tn : List String)
    (cfg : TopologyConfig) (t : ℕ) :
    typesMatch (generateOnion g r tn cfg t) := by
  simp only [typesMatch, generateOnion]
  rw [onionGo_positions_length, onionGo_types_length]

/-! Structural lemmas for the small-world generator. -/

theorem swNodes_positions_length (g : Geom) (r : ℕ → ℚ) (tn : List String)
    (cfg : TopologyConfig) (cc : ℕ) :
    ∀ (is : List ℕ) (k : ℕ), (swNodes g r tn cfg cc is k).1.length = is.length := by
  intro is
  induction is with
  | nil => intro k; rfl
  | cons i rest ih => intro k; simp [swNodes, ih]

theorem swNodes_types_length (g : Geom) (r : ℕ → ℚ) (tn : List String)
    (cfg : TopologyConfig) (cc : ℕ) :
    ∀ (is : List ℕ) (k : ℕ), (swNodes g r tn cfg cc is k).2.1.length = is.length := by
  intro is
  induction is with
  | nil => intro k; rfl
  | cons i rest ih => intro k; simp [swNodes, ih]

theorem swRetarget_spec {r : ℕ → ℚ} {i cc : ℕ} (hr : ValidRng r) (hcc : 0 < cc) :
    ∀ (fuel k : ℕ) {tk : ℕ × ℕ}, swRetarget r i cc fuel k = some tk →
    tk.1 < cc ∧ tk.1 ≠ i := by
  intro fuel
  induction fuel with
  | zero => intro k tk h; simp [swRetarget] at h
  | succ fuel ih =>
    intro k tk h
    rw [swRetarget] at h
    by_cases he : (⌊r k * (cc : ℚ)⌋).toNat = i
    · rw [if_pos he] at h
      exact ih _ h
    · rw [if_neg he] at h
      simp only [Option.some_inj] at h
      subst h
      exact ⟨floor_mul_toNat_lt (hr k).2 hcc, he⟩


theorem swEdgesInner_mem {r : ℕ → ℚ} {rp : ℚ} {fuel i cc : ℕ} (hr : ValidRng r)
    (hicc : i < cc) :
    ∀ (js : List ℕ) (k : ℕ) {cs : List Connection} {k2 : ℕ},
    swEdgesInner r rp fuel i cc js k = some (cs, k2) →
    ∀ c ∈ cs, c.«from» = i ∧ c.«to» < cc ∧ c.weight = 7/10 ∧
      ((∃ j ∈ js, c.«to» = (i + j) % cc) ∨ c.«to» ≠ i) := by
  intro js
  induction js with
  | nil =>
    intro k cs k2 h c hc
    simp only [swEdgesInner, Option.some_inj, Prod.mk.injEq] at h
    rcases h with ⟨rfl, _⟩
    simp at hc
  | cons j rest ih =>
    intro k cs k2 h c hc
    rw [swEdgesInner] at h
    by_cases hrw : r k < rp
    · rw [if_pos hrw] at h
      cases hst : swRetarget r i cc fuel (k + 1) with
      | none => rw [hst] at h; simp at h
      | some tk =>
        rw [hst, Option.some_bind] at h
        cases htail : swEdgesInner r rp fuel i cc rest tk.2 with
        | none => rw [htail] at h; simp at h
        | some cs2 =>
          rw [htail, Option.some_bind] at h
          simp only [Option.some_inj, Prod.mk.injEq] at h
          rcases h with ⟨rfl, _⟩
          rcases List.mem_cons.mp hc with rfl | hc2
          · rcases swRetarget_spec hr (by omega) fuel (k + 1) hst with ⟨ht, hne⟩
            exact ⟨rfl, ht, rfl, Or.inr hne⟩
          · rcases ih _ (by rw [htail]) c hc2 with ⟨h1, h2, h3, h4⟩
            refine ⟨h1, h2, h3, ?_⟩
            rcases h4 with ⟨j2, hj2, he⟩ | hne
            · exact Or.inl ⟨j2, by simp [hj2], he⟩
            · exact Or.inr hne
    · rw [if_neg hrw, Option.some_bind] at h
      cases htail : swEdgesInner r rp fuel i cc rest (k + 1) with
      | none => rw [htail] at h; simp at h
      | some cs2 =>
        rw [htail, Option.some_bind] at h
        simp only [Option.some_inj, Prod.mk.injEq] at h
        rcases h with ⟨rfl, _⟩
        rcases List.mem_cons.mp hc with rfl | hc2
        · exact ⟨rfl, Nat.mod_lt _ (by omega), rfl, Or.inl ⟨j, by simp, rfl⟩⟩
        · rcases ih _ (by rw [htail]) c hc2 with ⟨h1, h2, h3, h4⟩
          refine ⟨h1, h2, h3, ?_⟩
          rcases h4 with ⟨j2, hj2, he⟩ | hne
          · exact Or.inl ⟨j2, by simp [hj2], he⟩
          · exact Or.inr hne

theorem swEdgesOuter_mem {r : ℕ → ℚ} {rp : ℚ} {fuel cc kHalf : ℕ} (hr : ValidRng r) :
    ∀ (is : List ℕ) (k : ℕ) {cs : List Connection} {k2 : ℕ},
    swEdgesOuter r rp fuel cc kHalf is k = some (cs, k2) → (∀ i ∈ is, i < cc) →
    ∀ c ∈ cs, c.«from» < cc ∧ c.«to» < cc ∧ c.weight = 7/10 ∧
      ((∃ j, 1 ≤ j ∧ j ≤ kHalf ∧ c.«to» = (c.«from» + j) % cc) ∨ c.«to» ≠ c.«from») := by
  intro is
  induction is with
  | nil =>
    intro k cs k2 h _ c hc
    simp only [swEdgesOuter, Option.some_inj, Prod.mk.injEq] at h
    rcases h with ⟨rfl, _⟩
    simp at hc
  | cons i rest ih =>
    intro k cs k2 h hlt c hc
    rw [swEdgesOuter] at h
    cases hin : swEdgesInner r rp fuel i cc ((List.range kHalf).map (· + 1)) k with
    | none => rw [hin] at h; simp at h
    | some cs1 =>
      rw [hin, Option.some_bind] at h
      cases hout : swEdgesOuter r rp fuel cc kHalf rest cs1.2 with
      | none => rw [hout] at h; simp at h
      | some cs2 =>
        rw [hout, Option.some_bind] at h
        simp only [Option.some_inj, Prod.mk.injEq] at h
        rcases h with ⟨rfl, _⟩
        have hi : i < cc := hlt i (by simp)
        rcases List.mem_append.mp hc with hc1 | hc2
        · rcases swEdgesInner_mem hr hi _ k (by rw [hin]) c hc1 with ⟨h1, h2, h3, h4⟩
          refine ⟨by omega, h2, h3, ?_⟩
          rcases h4 with ⟨j, hj, he⟩ | hne
          · rcases List.mem_map.mp hj with ⟨j0, hj0, rfl⟩
            have := List.mem_range.mp hj0
            exact Or.inl ⟨j0 + 1, by omega, by omega, by rw [h1]; exact he⟩
          · exact Or.inr (by rw [h1]; exact hne)
        · exact ih _ (by rw [hout]) (fun x hx => hlt x (by simp [hx])) c hc2

theorem swEdgesInner_noRewire {r : ℕ → ℚ} (hr : ValidRng r) (fuel i cc : ℕ) :
    ∀ (js : List ℕ) (k : ℕ),
    swEdgesInner r 0 fuel i cc js k
      = some (js.map fun j => { «from» := i, «to» := (i + j) % cc, weight := 7/10 },
          k + js.length) := by
  intro js
  induction js with
  | nil => intro k; simp [swEdgesInner]
  | cons j rest ih =>
    intro k
    rw [swEdgesInner]
    have hno : ¬ r k < 0 := not_lt.mpr (hr k).1
    rw [if_neg hno, Option.some_bind, ih (k + 1), Option.some_bind]
    simp only [Option.some_inj, Prod.mk.injEq, List.map_cons, List.length_cons]
    refine ⟨by simp, by omega⟩

theorem swEdgesOuter_noRewire {r : ℕ → ℚ} (hr : ValidRng r) (fuel cc kHalf : ℕ) :
    ∀ (is : List ℕ) (k : ℕ),
    swEdgesOuter r 0 fuel cc kHalf is k
      = some (is.flatMap fun i => ((List.range kHalf).map (· + 1)).map fun j =>
            { «from» := i, «to» := (i + j) % cc, weight := 7/10 },
          k + is.length * kHalf) := by
  intro is
  induction is with
  | nil => intro k; simp [swEdgesOuter]
  | cons i rest ih =>
    intro k
    rw [swEdgesOuter, swEdgesInner_noRewire hr, Option.some_bind, ih, Option.some_bind]
    simp only [Option.some_inj, Prod.mk.injEq, List.flatMap_cons, List.length_cons,
      List.length_map, List.length_range]
    refine ⟨by simp, by ring⟩

theorem ring_target_ne {i j cc : ℕ} (hi : i < cc) (hj1 : 1 ≤ j) (hjc : j < cc) :
    (i + j) % cc ≠ i := by
  intro h
  have hmod : (i + j) % cc = (i + 0) % cc := by
    rw [h, Nat.add_zero, Nat.mod_eq_of_lt hi]
  have hdvd : (cc : ℕ) ∣ j := by
    have hme : Nat.ModEq cc (i + j) (i + 0) := hmod
    have := (Nat.ModEq.add_left_cancel' i hme)
    exact (Nat.modEq_zero_iff_dvd).mp this
  have := Nat.le_of_dvd (by omega) hdvd
  omega

theorem generateSmallWorld_some_spec {g : Geom} {r : ℕ → ℚ} {fuel : ℕ} {tn : List String}
    {cfg : TopologyConfig} {cc : ℕ} {res : TopoResult} (hr : ValidRng r)
    (h : generateSmallWorld g r fuel tn cfg cc = some res) :
    res.positions.length = cc ∧ res.types.length = cc ∧
    ∀ c ∈ res.connections, c.«from» < cc ∧ c.«to» < cc ∧ c.weight = 7/10 ∧
      ((∃ j, 1 ≤ j ∧ j ≤ cfg.kNeighbors / 2 ∧ c.«to» = (c.«from» + j) % cc) ∨
        c.«to» ≠ c.«from») := by
  simp only [generateSmallWorld] at h
  cases hout : swEdgesOuter r cfg.rewireProb fuel cc (cfg.kNeighbors / 2)
      (List.range cc)
      (swNodes g r tn cfg cc (List.range cc) 0).2.2 with
  | none => rw [hout] at h; simp at h
  | some cs =>
    rw [hout] at h
    simp only [Option.map_some', Option.some_inj] at h
    subst h
    refine ⟨?_, ?_, ?_⟩
    · simpa using swNodes_positions_length g r tn cfg cc (List.range cc) 0
    · simpa using swNodes_types_length g r tn cfg cc (List.range cc) 0
    · intro c hc
      exact swEdgesOuter_mem hr (List.range cc) _ hout
        (fun x hx => List.mem_range.mp hx) c hc

theorem swNodes_types_forced (g : Geom) (r : ℕ → ℚ) (tn : List String) (cfg : TopologyConfig)
    (cc : ℕ) :
    ∀ (is : List ℕ) (k idx : ℕ), idx < is.length →
    ((((is.getD idx 0 : ℕ) : ℚ) < (cc : ℚ) * (1/10) →
        (swNodes g r tn cfg cc is k).2.1.getD idx "" = "sensor") ∧
     (¬ (((is.getD idx 0 : ℕ) : ℚ) < (cc : ℚ) * (1/10)) →
      (((is.getD idx 0 : ℕ) : ℚ) > (cc : ℚ) * (9/10)) →
        (swNodes g r tn cfg cc is k).2.1.getD idx "" = "processor")) := by
  intro is
  induction is with
  | nil => intro k idx hidx; simp at hidx
  | cons i rest ih =>
    intro k idx hidx
    cases idx with
    | zero =>
      simp only [List.getD_cons_zero]
      constructor
      · intro h1
        simp only [swNodes, List.getD_cons_zero]
        rw [if_pos h1]
      · intro h1 h2
        simp only [swNodes, List.getD_cons_zero]
        rw [if_neg h1, if_pos h2]
    | succ idx =>
      simp only [List.getD_cons_succ]
      have hlen : idx < rest.length := by simpa using hidx
      constructor
      · intro h1
        simp only [swNodes, List.getD_cons_succ]
        exact (ih _ idx hlen).1 h1
      · intro h1 h2
        simp only [swNodes, List.getD_cons_succ]
        exact (ih _ idx hlen).2 h1 h2

/-! Structural lemmas for the internal-structure generators. -/

theorem mem_pairsUpTo {n : ℕ} {ij : ℕ × ℕ} (h : ij ∈ pairsUpTo n) :
    ij.1 < ij.2 ∧ ij.2 < n := by
  rcases List.mem_flatMap.mp h with ⟨i, hi, hstep⟩
  rcases List.mem_map.mp hstep with ⟨j, hj, rfl⟩
  have hi' := List.mem_range.mp hi
  have hj' := List.mem_range'_1.mp hj
  exact ⟨by omega, by omega⟩

theorem sphereConnsGo_mem (g : Geom) (r : ℕ → ℚ) (th : ℚ) (ps : List NodePos) :
    ∀ (pairs : List (ℕ × ℕ)) (k : ℕ), ∀ c ∈ (sphereConnsGo g r th ps pairs k).1,
    ∃ ij ∈ pairs, c.«from» = ij.1 ∧ c.«to» = ij.2 := by
  intro pairs
  induction pairs with
  | nil => intro k c hc; simp [sphereConnsGo] at hc
  | cons ij rest ih =>
    intro k c hc
    rw [sphereConnsGo] at hc
    by_cases h1 : sphereDist g ps ij.1 ij.2 < th * 4
    · rw [if_pos h1] at hc
      by_cases h2 : r k < 1/4
      · rw [if_pos h2] at hc
        rcases List.mem_cons.mp hc with rfl | hc2
        · exact ⟨ij, by simp, rfl, rfl⟩
        · rcases ih _ c hc2 with ⟨ij2, hij2, he⟩
          exact ⟨ij2, by simp [hij2], he⟩
      · rw [if_neg h2] at hc
        rcases ih _ c hc with ⟨ij2, hij2, he⟩
        exact ⟨ij2, by simp [hij2], he⟩
    · rw [if_neg h1] at hc
      rcases ih _ c hc with ⟨ij2, hij2, he⟩
      exact ⟨ij2, by simp [hij2], he⟩

theorem randomConnsGo_mem (r : ℕ → ℚ) (d : ℚ) :
    ∀ (pairs : List (ℕ × ℕ)) (k : ℕ), ∀ c ∈ (randomConnsGo r d pairs k).1,
    ∃ ij ∈ pairs, c.«from» = ij.1 ∧ c.«to» = ij.2 := by
  intro pairs
  induction pairs with
  | nil => intro k c hc; simp [randomConnsGo] at hc
  | cons ij rest ih =>
    intro k c hc
    rw [randomConnsGo] at hc
    by_cases h1 : r k < d * (3/20)
    · rw [if_pos h1] at hc
      rcases List.mem_cons.mp hc with rfl | hc2
      · exact ⟨ij, by simp, rfl, rfl⟩
      · rcases ih _ c hc2 with ⟨ij2, hij2, he⟩
        exact ⟨ij2, by simp [hij2], he⟩
    · rw [if_neg h1] at hc
      rcases ih _ c hc with ⟨ij2, hij2, he⟩
      exact ⟨ij2, by simp [hij2], he⟩

theorem generateSphereSurface_positions_length (g : Geom) (r : ℕ → ℚ) (cfg : StructureConfig)
    (n : ℕ) : (generateSphereSurface g r cfg n).positions.length = n := by
  simp [generateSphereSurface]

theorem generateSphereSurface_conn (g : Geom) (r : ℕ → ℚ) (cfg : StructureConfig) (n : ℕ) :
    ∀ c ∈ (generateSphereSurface g r cfg n).connections, c.«from» < c.«to» ∧ c.«to» < n := by
  intro c hc
  simp only [generateSphereSurface] at hc
  rcases sphereConnsGo_mem g r cfg.distanceThreshold _ (pairsUpTo n) 0 c hc with
    ⟨ij, hij, h1, h2⟩
  have := mem_pairsUpTo hij
  omega

theorem generateSphereSurface_type (g : Geom) (r : ℕ → ℚ) (cfg : StructureConfig) {n i : ℕ}
    (hi : i < n) :
    ((generateSphereSurface g r cfg n).positions.getD i dfltNode).type = structType n i := by
  simp only [generateSphereSurface]
  rw [getD_map_range _ _ _ _ hi]
  rfl

theorem generateRandomGraph_positions_length (r : ℕ → ℚ) (cfg : StructureConfig) (n : ℕ) :
    (generateRandomGraph r cfg n).positions.length = n := by
  simp [generateRandomGraph]

theorem generateRandomGraph_conn (r : ℕ → ℚ) (cfg : StructureConfig) (n : ℕ) :
    ∀ c ∈ (generateRandomGraph r cfg n).connections, c.«from» < c.«to» ∧ c.«to» < n := by
  intro c hc
  simp only [generateRandomGraph] at hc
  rcases randomConnsGo_mem r cfg.connectionDensity (pairsUpTo n) (3 * n) c hc with
    ⟨ij, hij, h1, h2⟩
  have := mem_pairsUpTo hij
  omega

theorem generateRandomGraph_type (r : ℕ → ℚ) (cfg : StructureConfig) {n i : ℕ} (hi : i < n) :
    ((generateRandomGraph r cfg n).positions.getD i dfltNode).type = structType n i := by
  simp only [generateRandomGraph]
  rw [getD_map_range _ _ _ _ hi]

/-! Concrete valid random streams and remaining shared lemmas. -/

theorem validRng_rHalf : ValidRng rHalf := by
  intro n; constructor <;> norm_num [rHalf]

theorem validRng_rZero : ValidRng rZero := by
  intro n; constructor <;> norm_num [rZero]

theorem generateSmallWorld_some_parts {g : Geom} {r : ℕ → ℚ} {fuel : ℕ} {tn : List String}
    {cfg : TopologyConfig} {cc : ℕ} {res : TopoResult}
    (h : generateSmallWorld g r fuel tn cfg cc = some res) :
    res.positions = (swNodes g r tn cfg cc (List.range cc) 0).1 ∧
    res.types = (swNodes g r tn cfg cc (List.range cc) 0).2.1 ∧
    ∃ cs, swEdgesOuter r cfg.rewireProb fuel cc (cfg.kNeighbors / 2) (List.range cc)
        (swNodes g r tn cfg cc (List.range cc) 0).2.2 = some cs ∧
      res.connections = cs.1 := by
  simp only [generateSmallWorld] at h
  cases hout : swEdgesOuter r cfg.rewireProb fuel cc (cfg.kNeighbors / 2) (List.range cc)
      (swNodes g r tn cfg cc (List.range cc) 0).2.2 with
  | none => rw [hout] at h; simp at h
  | some cs =>
    rw [hout] at h
    simp only [Option.map_some', Option.some_inj] at h
    subst h
    exact ⟨rfl, rfl, cs, rfl, rfl⟩

theorem structType_input_iff (n i : ℕ) : structType n i = "input" ↔ i < 8 := by
  rw [structType]
  by_cases h1 : i < 8
  · simp [h1]
  · rw [if_neg h1]
    by_cases h2 : (n : ℤ) - 8 ≤ (i : ℤ)
    · rw [if_pos h2]
      constructor
      · intro he; exact absurd he (by decide)
      · intro hc; omega
    · rw [if_neg h2]
      constructor
      · intro he; exact absurd he (by decide)
      · intro hc; omega

theorem structType_output_iff (n i : ℕ) :
    structType n i = "output" ↔ (8 ≤ i ∧ (n : ℤ) - 8 ≤ (i : ℤ)) := by
  rw [structType]
  by_cases h1 : i < 8
  · rw [if_pos h1]
    constructor
    · intro he; exact absurd he (by decide)
    · intro hc; omega
  · rw [if_neg h1]
    by_cases h2 : (n : ℤ) - 8 ≤ (i : ℤ)
    · simp [h2]; omega
    · rw [if_neg h2]
      constructor
      · intro he; exact absurd he (by decide)
      · intro hc; exact absurd hc.2 h2

theorem structType_internal_iff (n i : ℕ) :
    structType n i = "internal" ↔ (8 ≤ i ∧ (i : ℤ) < (n : ℤ) - 8) := by
  rw [structType]
  by_cases h1 : i < 8
  · rw [if_pos h1]
    constructor
    · intro he; exact absurd he (by decide)
    · intro hc; omega
  · rw [if_neg h1]
    by_cases h2 : (n : ℤ) - 8 ≤ (i : ℤ)
    · rw [if_pos h2]
      constructor
      · intro he; exact absurd he (by decide)
      · intro hc; omega
    · simp [h2]; omega

/-! Claim theorems. -/

/-- C2: for every node count and config bundle, calling `generateTopology`
with a topology name that has no config (the catalog lookup answers `null`)
returns exactly the empty `NetworkDescription`
`{positions: [], connections: [], types: []}` instead of throwing; in
particular `generateTopology("doesnotexist", 50, {})` on the loaded
four-entry catalog returns that empty value. -/
theorem claim_C2 :
    (∀ (g : Geom) (r : ℕ → ℚ) (fuel : ℕ) (tn : List String)
      (topologies : String → Option TopologyConfig) (name : String) (cc : ℕ)
      (s : Option StructureConfig), topologies name = none →
      generateTopology g r fuel tn topologies name cc s = some emptyTopo) ∧
    (∀ (g : Geom) (r : ℕ → ℚ) (fuel : ℕ) (tn : List String) (f o sw h : TopologyConfig)
      (cc : ℕ) (s : Option StructureConfig),
      generateTopology g r fuel tn (loadedTopologies f o sw h) "doesnotexist" cc s
        = some emptyTopo) := by
  constructor
  · intro g r fuel tn topologies name cc s hnone
    rw [generateTopology, hnone]
  · intro g r fuel tn f o sw h cc s
    rw [generateTopology]
    have : loadedTopologies f o sw h "doesnotexist" = none := by
      simp [loadedTopologies]
    rw [this]

/-- C2 witness: the fallback evaluated at a fully concrete input. -/
theorem claim_C2_witness :
    generateTopology gZero rHalf 9 names4 (fun _ => none) "doesnotexist" 50 none
      = some emptyTopo :=
  claim_C2.1 gZero rHalf 9 names4 (fun _ => none) "doesnotexist" 50 none rfl

/-- C3: for every topology generator (funnel, onion, small-world,
hourglass) and every config and node count, the result satisfies
`types.length = positions.length` (one type per position); for the
small-world generator this holds for every terminating run. -/
theorem claim_C3 :
    (∀ (g : Geom) (cfg : TopologyConfig) (t : ℕ), typesMatch (generateFunnel g cfg t)) ∧
    (∀ (g : Geom) (r : ℕ → ℚ) (tn : List String) (cfg : TopologyConfig) (t : ℕ),
      typesMatch (generateOnion g r tn cfg t)) ∧
    (∀ (g : Geom) (r : ℕ → ℚ) (fuel : ℕ) (tn : List String) (cfg : TopologyConfig) (cc : ℕ),
      typesMatchO (generateSmallWorld g r fuel tn cfg cc)) ∧
    (∀ (g : Geom) (cfg : TopologyConfig) (t : ℕ), typesMatch (generateHourglass g cfg t)) := by
  refine ⟨fun g cfg t => generateFunnel_typesMatch g cfg t,
    fun g r tn cfg t => generateOnion_typesMatch g r tn cfg t, ?_,
    fun g cfg t => generateHourglass_typesMatch g cfg t⟩
  intro g r fuel tn cfg cc res hres
  rw [Option.mem_def] at hres
  rcases generateSmallWorld_some_parts hres with ⟨hpos, hty, _⟩
  rw [typesMatch, hpos, hty, swNodes_positions_length, swNodes_types_length]

/-- C3 witness: the parallel-array invariant evaluated at concrete inputs. -/
theorem claim_C3_witness :
    typesMatch (generateFunnel gZero cfgTest 5) ∧
    typesMatch (generateOnion gZero rHalf names4 cfgTest 5) ∧
    typesMatchO (generateSmallWorld gZero rHalf 9 names4 cfgTest 5) ∧
    typesMatch (generateHourglass gZero cfgTest 5) :=
  ⟨claim_C3.1 gZero cfgTest 5, claim_C3.2.1 gZero rHalf names4 cfgTest 5,
    claim_C3.2.2.1 gZero rHalf 9 names4 cfgTest 5, claim_C3.2.2.2 gZero cfgTest 5⟩

/-- C1: for every generator (funnel, onion, small-world, hourglass,
sphere-surface, random-graph), every config, and every outcome of a valid
random source, every connection of the result has `from` and `to` indices
inside `[0, positions.length)`. -/
theorem claim_C1 :
    (∀ (g : Geom) (cfg : TopologyConfig) (t : ℕ), connIndicesValid (generateFunnel g cfg t)) ∧
    (∀ (g : Geom) (r : ℕ → ℚ) (tn : List String) (cfg : TopologyConfig) (t : ℕ),
      ValidRng r → connIndicesValid (generateOnion g r tn cfg t)) ∧
    (∀ (g : Geom) (r : ℕ → ℚ) (fuel : ℕ) (tn : List String) (cfg : TopologyConfig) (cc : ℕ),
      ValidRng r → connIndicesValidO (generateSmallWorld g r fuel tn cfg cc)) ∧
    (∀ (g : Geom) (cfg : TopologyConfig) (t : ℕ),
      connIndicesValid (generateHourglass g cfg t)) ∧
    (∀ (g : Geom) (r : ℕ → ℚ) (scfg : StructureConfig) (n : ℕ),
      structConnIndicesValid (generateSphereSurface g r scfg n)) ∧
    (∀ (r : ℕ → ℚ) (scfg : StructureConfig) (n : ℕ),
      structConnIndicesValid (generateRandomGraph r scfg n)) := by
  refine ⟨fun g cfg t => generateFunnel_connIndicesValid g cfg t,
    fun g r tn cfg t hr => generateOnion_connIndicesValid g r tn cfg t hr, ?_,
    fun g cfg t => generateHourglass_connIndicesValid g cfg t, ?_, ?_⟩
  · intro g r fuel tn cfg cc hr res hres
    rw [Option.mem_def] at hres
    rcases generateSmallWorld_some_spec hr hres with ⟨hlen, _, hconn⟩
    intro c hc
    rcases hconn c hc with ⟨h1, h2, _, _⟩
    rw [hlen]
    exact ⟨h1, h2⟩
  · intro g r scfg n c hc
    have := generateSphereSurface_conn g r scfg n c hc
    rw [generateSphereSurface_positions_length]
    omega
  · intro r scfg n c hc
    have := generateRandomGraph_conn r scfg n c hc
    rw [generateRandomGraph_positions_length]
    omega

/-- C1 witness: index validity evaluated at concrete inputs, with the
random-source hypotheses discharged by the constant one-half stream. -/
theorem claim_C1_witness :
    connIndicesValid (generateFunnel gZero cfgTest 5) ∧
    connIndicesValid (generateOnion gZero rHalf names4 cfgTest 5) ∧
    connIndicesValidO (generateSmallWorld gZero rHalf 9 names4 cfgTest 5) ∧
    connIndicesValid (generateHourglass gZero cfgTest 5) ∧
    structConnIndicesValid (generateSphereSurface gZero rHalf cfgStructTest 5) ∧
    structConnIndicesValid (generateRandomGraph rHalf cfgStructTest 5) :=
  ⟨claim_C1.1 gZero cfgTest 5,
    claim_C1.2.1 gZero rHalf names4 cfgTest 5 validRng_rHalf,
    claim_C1.2.2.1 gZero rHalf 9 names4 cfgTest 5 validRng_rHalf,
    claim_C1.2.2.2.1 gZero cfgTest 5,
    claim_C1.2.2.2.2.1 gZero rHalf cfgStructTest 5,
    claim_C1.2.2.2.2.2 rHalf cfgStructTest 5⟩

/-- C9 counterexample: with `cocoonCount = 1` and `kNeighbors = 2` the
small-world ring edge `(0, (0+1) mod 1)` is the self-loop `(0, 0)`, so the
claim "no generator ever emits a self-loop for every valid input (node
counts >= 1)" is false as stated. -/
theorem claim_C9_cex :
    (generateSmallWorld gZero rHalf 9 names4 cfgSWk2 1).map
        (fun res => res.connections) = some [{ «from» := 0, «to» := 0, weight := 7/10 }] ∧
    ¬ noSelfLoopO (generateSmallWorld gZero rHalf 9 names4 cfgSWk2 1) := by
  have hmap : (generateSmallWorld gZero rHalf 9 names4 cfgSWk2 1).map
      (fun res => res.connections) = some [{ «from» := 0, «to» := 0, weight := 7/10 }] := by
    simp only [generateSmallWorld]
    rw [show cfgSWk2.rewireProb = 0 from rfl]
    rw [swEdgesOuter_noRewire validRng_rHalf]
    simp only [Option.map_some', Option.some_inj]
    rw [show cfgSWk2.kNeighbors = 2 from rfl]
    norm_num [List.range_succ]
  refine ⟨hmap, fun hno => ?_⟩
  cases hgen : generateSmallWorld gZero rHalf 9 names4 cfgSWk2 1 with
  | none => rw [hgen] at hmap; simp at hmap
  | some res =>
    rw [hgen] at hmap
    simp only [Option.map_some', Option.some_inj] at hmap
    have hres := hno res (by rw [Option.mem_def, hgen])
    have hmem : ({ «from» := 0, «to» := 0, weight := 7/10 } : Connection) ∈ res.connections := by
      rw [hmap]; simp
    exact (hres _ hmem) rfl

/-- C9 corrected: the funnel, onion, hourglass, sphere-surface and
random-graph generators never emit a self-loop; the small-world generator
never emits one provided `kNeighbors/2 < cocoonCount` (every ring offset is
then nonzero modulo the count, and rewired targets are redrawn until they
differ from the source), but for `cocoonCount ≤ kNeighbors/2` a ring edge
can be a self-loop. -/
theorem claim_C9_amended :
    (∀ (g : Geom) (cfg : TopologyConfig) (t : ℕ), noSelfLoop (generateFunnel g cfg t)) ∧
    (∀ (g : Geom) (r : ℕ → ℚ) (tn : List String) (cfg : TopologyConfig) (t : ℕ),
      ValidRng r → noSelfLoop (generateOnion g r tn cfg t)) ∧
    (∀ (g : Geom) (cfg : TopologyConfig) (t : ℕ), noSelfLoop (generateHourglass g cfg t)) ∧
    (∀ (g : Geom) (r : ℕ → ℚ) (scfg : StructureConfig) (n : ℕ),
      structNoSelfLoop (generateSphereSurface g r scfg n)) ∧
    (∀ (r : ℕ → ℚ) (scfg : StructureConfig) (n : ℕ),
      structNoSelfLoop (generateRandomGraph r scfg n)) ∧
    (∀ (g : Geom) (r : ℕ → ℚ) (fuel : ℕ) (tn : List String) (cfg : TopologyConfig) (cc : ℕ),
      ValidRng r → cfg.kNeighbors / 2 < cc →
      noSelfLoopO (generateSmallWorld g r fuel tn cfg cc)) := by
  refine ⟨fun g cfg t => generateFunnel_noSelfLoop g cfg t,
    fun g r tn cfg t hr => generateOnion_noSelfLoop g r tn cfg t hr,
    fun g cfg t => generateHourglass_noSelfLoop g cfg t, ?_, ?_, ?_⟩
  · intro g r scfg n c hc
    have := generateSphereSurface_conn g r scfg n c hc
    omega
  · intro r scfg n c hc
    have := generateRandomGraph_conn r scfg n c hc
    omega
  · intro g r fuel tn cfg cc hr hk res hres
    rw [Option.mem_def] at hres
    rcases generateSmallWorld_some_spec hr hres with ⟨_, _, hconn⟩
    intro c hc
    rcases hconn c hc with ⟨h1, _, _, hring⟩
    rcases hring with ⟨j, hj1, hj2, he⟩ | hne
    · rw [he]
      exact fun hcontra => ring_target_ne h1 hj1 (by omega) hcontra.symm
    · exact fun hcontra => hne hcontra.symm

/-- C9 witness for the amended claim, hypotheses discharged concretely. -/
theorem claim_C9_witness :
    noSelfLoop (generateFunnel gZero cfgTest 5) ∧
    noSelfLoop (generateOnion gZero rHalf names4 cfgTest 5) ∧
    noSelfLoop (generateHourglass gZero cfgTest 5) ∧
    structNoSelfLoop (generateSphereSurface gZero rHalf cfgStructTest 5) ∧
    structNoSelfLoop (generateRandomGraph rHalf cfgStructTest 5) ∧
    noSelfLoopO (generateSmallWorld gZero rHalf 9 names4 cfgTest 5) :=
  ⟨claim_C9_amended.1 gZero cfgTest 5,
    claim_C9_amended.2.1 gZero rHalf names4 cfgTest 5 validRng_rHalf,
    claim_C9_amended.2.2.1 gZero cfgTest 5,
    claim_C9_amended.2.2.2.1 gZero rHalf cfgStructTest 5,
    claim_C9_amended.2.2.2.2.1 rHalf cfgStructTest 5,
    claim_C9_amended.2.2.2.2.2 gZero rHalf 9 names4 cfgTest 5 validRng_rHalf (by decide)⟩

/-- C10: for the funnel, onion and hourglass generators, every connection
links adjacent layers in the fixed inward-to-outward direction:
`positions[from].layer + 1 = positions[to].layer`, for every valid config
and every outcome of a valid random source. -/
theorem claim_C10 :
    (∀ (g : Geom) (cfg : TopologyConfig) (t : ℕ), adjacentLayers (generateFunnel g cfg t)) ∧
    (∀ (g : Geom) (r : ℕ → ℚ) (tn : List String) (cfg : TopologyConfig) (t : ℕ),
      ValidRng r → adjacentLayers (generateOnion g r tn cfg t)) ∧
    (∀ (g : Geom) (cfg : TopologyConfig) (t : ℕ),
      adjacentLayers (generateHourglass g cfg t)) :=
  ⟨fun g cfg t => generateFunnel_adjacentLayers g cfg t,
    fun g r tn cfg t hr => generateOnion_adjacentLayers g r tn cfg t hr,
    fun g cfg t => generateHourglass_adjacentLayers g cfg t⟩

/-- C10 witness: adjacency evaluated at concrete inputs. -/
theorem claim_C10_witness :
    adjacentLayers (generateFunnel gZero cfgTest 5) ∧
    adjacentLayers (generateOnion gZero rHalf names4 cfgTest 5) ∧
    adjacentLayers (generateHourglass gZero cfgTest 5) :=
  ⟨claim_C10.1 gZero cfgTest 5,
    claim_C10.2.1 gZero rHalf names4 cfgTest 5 validRng_rHalf,
    claim_C10.2.2 gZero cfgTest 5⟩

theorem swNodes_types_middle (g : Geom) (r : ℕ → ℚ) (tn : List String) (cfg : TopologyConfig)
    (cc : ℕ) :
    ∀ (is : List ℕ) (k idx : ℕ), idx < is.length →
    ¬ (((is.getD idx 0 : ℕ) : ℚ) < (cc : ℚ) * (1/10)) →
    ¬ (((is.getD idx 0 : ℕ) : ℚ) > (cc : ℚ) * (9/10)) →
    ∃ k2, (swNodes g r tn cfg cc is k).2.1.getD idx ""
      = tn.getD (⌊r k2 * 4⌋).toNat "undefined" := by
  intro is
  induction is with
  | nil => intro k idx hidx; simp at hidx
  | cons i rest ih =>
    intro k idx hidx
    cases idx with
    | zero =>
      simp only [List.getD_cons_zero]
      intro h1 h2
      refine ⟨k + 3, ?_⟩
      simp only [swNodes, List.getD_cons_zero]
      rw [if_neg h1, if_neg h2]
    | succ idx =>
      simp only [List.getD_cons_succ]
      intro h1 h2
      have hlen : idx < rest.length := by simpa using hidx
      rcases ih _ idx hlen h1 h2 with ⟨k2, hk2⟩
      refine ⟨k2, ?_⟩
      simp only [swNodes, List.getD_cons_succ]
      exact hk2

theorem funnelLayerCount_spec_eq (t n L : ℕ) (hn : 2 ≤ n) :
    funnelLayerCount t n L = funnelLayerCountSpec t n L := by
  have hne : ((n : ℚ) - 1) ≠ 0 := by
    have h2 : (2 : ℚ) ≤ (n : ℚ) := by exact_mod_cast hn
    intro h0
    nlinarith
  rw [funnelLayerCount, funnelLayerCountSpec, jdiv, if_neg hne]

theorem funnelLayerCount_ten_three :
    funnelLayerCount 10 3 0 = 1 ∧ funnelLayerCount 10 3 1 = 3 ∧
      funnelLayerCount 10 3 2 = 10 := by
  refine ⟨?_, ?_, ?_⟩ <;>
    rw [funnelLayerCount, jdiv, if_neg (by norm_num)]
  all_goals norm_num
  all_goals omega

/-- C4: with `numLayers = 3` and `targetCount = 10`, the funnel produces
exactly 1 node in layer 0, 3 in layer 1 and 10 in layer 2, for 14 positions
in total (not clamped to the target count), and in general layer `L` holds
`max(1, floor(1 + (targetCount-1) * (L/(numLayers-1))^2))` nodes. -/
theorem claim_C4 (g : Geom) (cfg : TopologyConfig) (h3 : cfg.numLayers = 3) :
    ((generateFunnel g cfg 10).positions.countP fun p => p.layer == 0) = 1 ∧
    ((generateFunnel g cfg 10).positions.countP fun p => p.layer == 1) = 3 ∧
    ((generateFunnel g cfg 10).positions.countP fun p => p.layer == 2) = 10 ∧
    (generateFunnel g cfg 10).positions.length = 14 ∧
    (∀ (tc n L : ℕ), 2 ≤ n → funnelLayerCount tc n L = funnelLayerCountSpec tc n L) := by
  rcases funnelLayerCount_ten_three with ⟨hc0, hc1, hc2⟩
  simp only [generateFunnel, h3]
  rw [layeredGo_positions]
  have hrange : List.range 3 = [0, 1, 2] := rfl
  rw [hrange]
  simp only [List.flatMap_cons, List.flatMap_nil, List.append_nil, List.countP_append,
    List.countP_map, List.length_append, List.length_map, List.length_range]
  have hlayer : ∀ L i : ℕ, (funnelPos g cfg 3 10 L i).layer = L := fun _ _ => rfl
  rw [hc0, hc1, hc2]
  refine ⟨?_, ?_, ?_, by norm_num, fun tc n L hn => funnelLayerCount_spec_eq tc n L hn⟩
  all_goals simp only [Function.comp_def, hlayer]
  all_goals simp [List.countP_eq_length_filter]

/-- C4 witness: the scenario evaluated on a concrete three-layer config. -/
theorem claim_C4_witness :
    cfgTest.numLayers = 3 ∧
    ((generateFunnel gZero cfgTest 10).positions.countP fun p => p.layer == 0) = 1 ∧
    ((generateFunnel gZero cfgTest 10).positions.countP fun p => p.layer == 1) = 3 ∧
    ((generateFunnel gZero cfgTest 10).positions.countP fun p => p.layer == 2) = 10 ∧
    (generateFunnel gZero cfgTest 10).positions.length = 14 :=
  ⟨rfl, (claim_C4 gZero cfgTest rfl).1, (claim_C4 gZero cfgTest rfl).2.1,
    (claim_C4 gZero cfgTest rfl).2.2.1, (claim_C4 gZero cfgTest rfl).2.2.2.1⟩

/-- C5: with `kNeighbors = 4` and `rewireProb = 0`, the small-world
generator at `cocoonCount = 20` deterministically emits exactly the 40 ring
edges `(i, (i+1) mod 20)` and `(i, (i+2) mod 20)`, all of weight `0.7`,
regardless of the random source. -/
theorem claim_C5 (g : Geom) (r : ℕ → ℚ) (fuel : ℕ) (tn : List String) (cfg : TopologyConfig)
    (hr : ValidRng r) (hk : cfg.kNeighbors = 4) (hp : cfg.rewireProb = 0) :
    ∃ res, generateSmallWorld g r fuel tn cfg 20 = some res ∧
      res.connections = swRingConns 20 ∧ res.connections.length = 40 ∧
      ∀ c ∈ res.connections, c.weight = 7/10 := by
  simp only [generateSmallWorld, hk, hp]
  rw [swEdgesOuter_noRewire hr]
  simp only [Option.map_some']
  refine ⟨_, rfl, ?_⟩
  have hconn : (List.range 20).flatMap (fun i => ((List.range (4 / 2)).map (· + 1)).map
      fun j => ({ «from» := i, «to» := (i + j) % 20, weight := 7/10 } : Connection))
      = swRingConns 20 := by
    rw [swRingConns]
    rfl
  refine ⟨hconn, ?_, ?_⟩
  · rw [hconn, swRingConns, flatMap_length_sum]
    norm_num
  · intro c hc
    rw [hconn, swRingConns] at hc
    rcases List.mem_flatMap.mp hc with ⟨i, _, hmem⟩
    rcases List.mem_cons.mp hmem with rfl | hmem2
    · rfl
    · rcases List.mem_cons.mp hmem2 with rfl | hmem3
      · rfl
      · simp at hmem3

/-- C5 witness: the deterministic ring lattice at a fully concrete input. -/
theorem claim_C5_witness :
    ∃ res, generateSmallWorld gZero rHalf 9 names4 cfgTest 20 = some res ∧
      res.connections = swRingConns 20 ∧ res.connections.length = 40 ∧
      ∀ c ∈ res.connections, c.weight = 7/10 :=
  claim_C5 gZero rHalf 9 names4 cfgTest validRng_rHalf rfl rfl

theorem generateFunnel_oneLayer (g : Geom) (cfg : TopologyConfig) (t : ℕ)
    (h1 : cfg.numLayers = 1) :
    (generateFunnel g cfg t).positions = [] ∧ (generateFunnel g cfg t).connections = [] ∧
      (generateFunnel g cfg t).types = [] := by
  have hc : funnelLayerCount t 1 0 = 0 := by
    rw [funnelLayerCount, jdiv, if_pos (by norm_num)]
  refine ⟨?_, ?_, ?_⟩ <;> simp [generateFunnel, h1, layeredGo, hc]

theorem generateHourglass_oneLayer (g : Geom) (cfg : TopologyConfig) (t : ℕ)
    (h1 : cfg.numLayers = 1) :
    (generateHourglass g cfg t).positions = [] ∧
      (generateHourglass g cfg t).connections = [] ∧
      (generateHourglass g cfg t).types = [] := by
  have hc : hourglassLayerCount cfg 1 0 = 0 := by
    rw [hourglassLayerCount]
    norm_num [jdiv]
  refine ⟨?_, ?_, ?_⟩ <;> simp [generateHourglass, h1, layeredGo, hc]

/-- C6 counterexample: with `numLayers = 1` and `targetCount = 5` both the
funnel and the hourglass generator return zero positions, not the five the
claim promises — the `0/0 = NaN` layer ratio makes the per-layer node count
`NaN` and the node loop never runs. -/
theorem claim_C6_cex :
    (generateFunnel gZero cfgOneLayer 5).positions.length = 0 ∧
    ¬ ((generateFunnel gZero cfgOneLayer 5).positions.length = 5) ∧
    (generateHourglass gZero cfgOneLayer 5).positions.length = 0 ∧
    ¬ ((generateHourglass gZero cfgOneLayer 5).positions.length = 5) := by
  rcases generateFunnel_oneLayer gZero cfgOneLayer 5 rfl with ⟨hf, _, _⟩
  rcases generateHourglass_oneLayer gZero cfgOneLayer 5 rfl with ⟨hh, _, _⟩
  rw [hf, hh]
  refine ⟨rfl, by decide, rfl, by decide⟩

/-- C6 corrected: with `numLayers = 1` neither the funnel nor the hourglass
generator crashes, but the single layer gets zero nodes (not `targetCount`):
the layer ratio is `0/0 = NaN`, so the per-layer count is `NaN` and the node
loop body never executes; the result is completely empty (no positions, no
connections, no types). -/
theorem claim_C6_amended (g : Geom) (cfg : TopologyConfig) (t : ℕ) (h1 : cfg.numLayers = 1) :
    (generateFunnel g cfg t).positions = [] ∧ (generateFunnel g cfg t).connections = [] ∧
    (generateFunnel g cfg t).types = [] ∧
    (generateHourglass g cfg t).positions = [] ∧
    (generateHourglass g cfg t).connections = [] ∧
    (generateHourglass g cfg t).types = [] := by
  rcases generateFunnel_oneLayer g cfg t h1 with ⟨hf1, hf2, hf3⟩
  rcases generateHourglass_oneLayer g cfg t h1 with ⟨hh1, hh2, hh3⟩
  exact ⟨hf1, hf2, hf3, hh1, hh2, hh3⟩

/-- C6 witness: the amended boundary behavior at a concrete config. -/
theorem claim_C6_witness :
    cfgOneLayer.numLayers = 1 ∧ (generateFunnel gZero cfgOneLayer 7).positions = [] ∧
    (generateHourglass gZero cfgOneLayer 7).connections = [] :=
  ⟨rfl, (claim_C6_amended gZero cfgOneLayer 7 rfl).1,
    (claim_C6_amended gZero cfgOneLayer 7 rfl).2.2.2.2.1⟩

/-- C7 counterexample: at `nodeCount = 9`, node 7 lies in both the first-8
and last-8 ranges; the claim says the overlap is tagged `output`, but the
code's ternary tests `i < 8` first and tags it `input`. -/
theorem claim_C7_cex :
    ((generateSphereSurface gZero rZero cfgStructTest 9).positions.getD 7 dfltNode).type
      = "input" ∧
    (9 : ℤ) - 8 ≤ (7 : ℤ) ∧ "input" ≠ "output" := by
  refine ⟨?_, by norm_num, by decide⟩
  rw [generateSphereSurface_type gZero rZero cfgStructTest (by omega : (7 : ℕ) < 9)]
  rfl

/-- C7 corrected: for both internal-structure generators a node is tagged
`input` exactly when `i < 8` (this test wins on the overlap, so overlap
nodes are `input`, not `output`), `output` exactly when `8 ≤ i` and
`i ≥ nodeCount - 8`, and `internal` otherwise; with `nodeCount = 16` nodes
0-7 are `input`, nodes 8-15 `output`, and none is `internal`. -/
theorem claim_C7_amended (g : Geom) (r : ℕ → ℚ) (s1 s2 : StructureConfig) {n i : ℕ}
    (hi : i < n) :
    (((generateSphereSurface g r s1 n).positions.getD i dfltNode).type = "input" ↔ i < 8) ∧
    (((generateSphereSurface g r s1 n).positions.getD i dfltNode).type = "output" ↔
      (8 ≤ i ∧ (n : ℤ) - 8 ≤ (i : ℤ))) ∧
    (((generateSphereSurface g r s1 n).positions.getD i dfltNode).type = "internal" ↔
      (8 ≤ i ∧ (i : ℤ) < (n : ℤ) - 8)) ∧
    (((generateRandomGraph r s2 n).positions.getD i dfltNode).type = "input" ↔ i < 8) ∧
    (((generateRandomGraph r s2 n).positions.getD i dfltNode).type = "output" ↔
      (8 ≤ i ∧ (n : ℤ) - 8 ≤ (i : ℤ))) ∧
    (((generateRandomGraph r s2 n).positions.getD i dfltNode).type = "internal" ↔
      (8 ≤ i ∧ (i : ℤ) < (n : ℤ) - 8)) ∧
    (∀ j, j < 16 → structType 16 j = if j < 8 then "input" else "output") := by
  rw [generateSphereSurface_type g r s1 hi, generateRandomGraph_type r s2 hi]
  refine ⟨structType_input_iff n i, structType_output_iff n i, structType_internal_iff n i,
    structType_input_iff n i, structType_output_iff n i, structType_internal_iff n i, ?_⟩
  intro j hj
  by_cases h8 : j < 8
  · rw [if_pos h8, structType, if_pos h8]
  · rw [if_neg h8, structType, if_neg h8, if_pos (by omega)]

/-- C7 witness for the amended claim at concrete inputs. -/
theorem claim_C7_witness :
    (((generateSphereSurface gZero rZero cfgStructTest 16).positions.getD 7 dfltNode).type
      = "input" ↔ (7 : ℕ) < 8) ∧
    (((generateRandomGraph rZero cfgStructTest 16).positions.getD 15 dfltNode).type
      = "output" ↔ ((8 : ℕ) ≤ 15 ∧ (16 : ℤ) - 8 ≤ (15 : ℤ))) ∧
    (∀ j, j < 16 → structType 16 j = if j < 8 then "input" else "output") :=
  ⟨(claim_C7_amended gZero rZero cfgStructTest cfgStructTest
      (show (7 : ℕ) < 16 by omega)).1,
   (claim_C7_amended gZero rZero cfgStructTest cfgStructTest
      (show (15 : ℕ) < 16 by omega)).2.2.2.2.1,
   (claim_C7_amended gZero rZero cfgStructTest cfgStructTest
      (show (0 : ℕ) < 16 by omega)).2.2.2.2.2.2⟩

/-- C8 counterexample: for `cocoonCount = 20` the final `ceil(20*0.1) = 2`
indices are 18 and 19, but node 18 fails the code's `i > 20*0.9` test and
draws a random type; with the all-zeros stream it gets `"sensor"`, so the
last 10% of nodes are not always `"processor"`. -/
theorem claim_C8_cex :
    (⌈(20 : ℚ) * (1/10)⌉ = 2) ∧ (20 : ℕ) - 2 ≤ 18 ∧
    (generateSmallWorld gZero rZero 9 names4 cfgTest 20).map (fun res => res.types.getD 18 "")
      = some "sensor" ∧ "sensor" ≠ "processor" := by
  refine ⟨by norm_num, by omega, ?_, by decide⟩
  obtain ⟨res, hres⟩ : ∃ res, generateSmallWorld gZero rZero 9 names4 cfgTest 20 = some res := by
    simp only [generateSmallWorld]
    rw [show cfgTest.rewireProb = 0 from rfl, swEdgesOuter_noRewire validRng_rZero]
    exact ⟨_, rfl⟩
  rw [hres, Option.map_some', Option.some_inj]
  rcases generateSmallWorld_some_parts hres with ⟨_, hty, _⟩
  rw [hty]
  obtain ⟨k2, hk2⟩ := swNodes_types_middle gZero rZero names4 cfgTest 20 (List.range 20) 0 18
    (by simp)
    (by rw [getD_range _ _ _ (by omega : (18 : ℕ) < 20)]; norm_num)
    (by rw [getD_range _ _ _ (by omega : (18 : ℕ) < 20)]; norm_num)
  rw [hk2]
  norm_num [rZero, names4]

/-- C8 corrected: in the small-world generator the first band is as claimed
(`i < cocoonCount*0.1` is always `"sensor"`), but the forced `"processor"`
band is exactly the indices with `i > cocoonCount*0.9` — for
`cocoonCount = 20` that is only index 19, not the final
`ceil(cocoonCount*0.1) = 2` indices; the remaining nodes draw a random
type. -/
theorem claim_C8_amended (g : Geom) (r : ℕ → ℚ) (fuel : ℕ) (tn : List String)
    (cfg : TopologyConfig) (cc : ℕ) (res : TopoResult)
    (hres : generateSmallWorld g r fuel tn cfg cc = some res) {i : ℕ} (hi : i < cc) :
    (((i : ℚ) < (cc : ℚ) * (1/10)) → res.types.getD i "" = "sensor") ∧
    (¬ ((i : ℚ) < (cc : ℚ) * (1/10)) → ((i : ℚ) > (cc : ℚ) * (9/10)) →
      res.types.getD i "" = "processor") := by
  rcases generateSmallWorld_some_parts hres with ⟨_, hty, _⟩
  rw [hty]
  have hforced := swNodes_types_forced g r tn cfg cc (List.range cc) 0 i (by simpa using hi)
  rw [getD_range _ _ _ hi] at hforced
  exact hforced

/-- C8 witness: the forced sensor band at a concrete input (node 1 of 20). -/
theorem claim_C8_witness :
    (generateSmallWorld gZero rZero 9 names4 cfgTest 20).map (fun res => res.types.getD 1 "")
      = some "sensor" := by
  obtain ⟨res, hres⟩ : ∃ res, generateSmallWorld gZero rZero 9 names4 cfgTest 20 = some res := by
    simp only [generateSmallWorld]
    rw [show cfgTest.rewireProb = 0 from rfl, swEdgesOuter_noRewire validRng_rZero]
    exact ⟨_, rfl⟩
  rw [hres, Option.map_some', Option.some_inj]
  exact (claim_C8_amended gZero rZero 9 names4 cfgTest 20 res hres
    (by omega : (1 : ℕ) < 20)).1 (by norm_num)
